import Mathlib

/-!
# hpp-manipulation-corba: the constraint-graph and problem servants

A shallow embedding of `src/graph.impl.cc` and `src/problem.impl.cc`.

The servants are thin layers over two collaborators that live in other
packages: the problem solver (`problemSolver_`) and the constraint-graph
library (`graph::GraphComponent`, `graph::Node`, `graph::Edge`, ...).
Their observable behaviour is kept explicit:

* the named registries of the problem solver are fields of `ProblemSolver`,
  so every statement below holds for whatever they contain;
* the component registry `graph::GraphComponent::components` is a list
  indexed by component id, each entry a weak pointer (`none` once expired);
* a C++ call that may throw returns its outcome together with the state it
  leaves behind, so that what a failing call has already written is visible.
-/

namespace hpp.manipulation

/-! ## Values and exceptions -/

/-- A `double`, kept as its bit pattern: the servants copy doubles between
sequences and vectors and never compute with them. -/
structure Double where
  bits : Nat
  deriving DecidableEq, Repr

/-- The CORBA sequence `hpp::floatSeq`. -/
abbrev floatSeq := List Double

/-- The vector type `Configuration_t`. -/
abbrev Configuration_t := List Double

/-- The CORBA sequence `hpp::Names_t`. -/
abbrev Names_t := List String

/-- What can leave a servant method instead of a result. -/
inductive Exn where
  /-- The CORBA user exception `hpp::Error` with its message. -/
  | Error (msg : String)
  /-- A `std::exception` that no handler of the method converts. -/
  | stdException (msg : String)
  /-- A member access through a null pointer. -/
  | nullDereference
  /-- A loop that never ends. -/
  | endless
  deriving DecidableEq, Repr

/-- True for an `hpp::Error`, the only failure the interface declares. -/
def Exn.isError : Exn → Bool
  | .Error _ => true
  | _ => false

/-! ## Constraints held by the problem solver -/

/-- A `DifferentiableFunctionPtr_t` that is not null, identified by a handle. -/
structure DifferentiableFunction where
  handle : String
  deriving DecidableEq, Repr

/-- A `ComparisonTypePtr_t`, identified by a handle. -/
structure ComparisonType where
  handle : Nat
  deriving DecidableEq, Repr

/-- A `LockedJointPtr_t` that is not null, identified by a handle. -/
structure LockedJoint where
  handle : String
  deriving DecidableEq, Repr

/-- The object built by `NumericalConstraint::create (function, comparison)`:
it stores the two shared pointers it is given; the function pointer may be
null. -/
structure NumericalConstraint where
  function : Option DifferentiableFunction
  comparisonType : ComparisonType
  deriving DecidableEq, Repr

/-- The static constructor `NumericalConstraint::create`. -/
def NumericalConstraint.create (function : Option DifferentiableFunction)
    (comparisonType : ComparisonType) : NumericalConstraint :=
  { function := function, comparisonType := comparisonType }

/-- What `LevelSetEdge::insertConfigConstraint` accepts: a numerical
constraint or a locked joint (possibly a null pointer). -/
inductive ConfigConstraint where
  | numerical (c : NumericalConstraint)
  | locked (l : Option LockedJoint)
  deriving DecidableEq, Repr

/-! ## Graph components -/

/-- Dynamic type of a graph component. -/
inductive Kind where
  | graph
  | nodeSelector
  | node
  | edge
  | waypointEdge
  | levelSetEdge
  deriving DecidableEq, Repr

/-- A component of the constraint graph. The fields after `lockedJoints`
belong to one dynamic type each and keep their default value elsewhere. -/
structure GraphComponent where
  /-- Rank of the component in the registry, given by `GraphComponent::init`. -/
  id : Nat
  kind : Kind
  name : String := ""
  numericalConstraints : List NumericalConstraint := []
  lockedJoints : List (Option LockedJoint) := []
  /-- Graph: solver parameters. -/
  maxIterations : Nat := 0
  errorThreshold : Double := ⟨0⟩
  /-- Node: constraints used for paths only. -/
  numericalConstraintsForPath : List NumericalConstraint := []
  /-- Node: outgoing edges with their weights (`neighbors_`). -/
  neighbors : List (Nat × Int) := []
  /-- Edge: id of the node `from ()`. -/
  nodeFrom : Nat := 0
  /-- Edge: id of the node `to ()`. -/
  nodeTo : Nat := 0
  isInNodeFrom : Bool := false
  /-- WaypointEdge: `waypoint_`, the inner edge and its target node. -/
  waypoint : Option (Nat × Nat) := none
  /-- LevelSetEdge: constraints given to `insertConfigConstraint`, in order. -/
  configConstraints : List ConfigConstraint := []
  /-- LevelSetEdge: the histogram, once `buildHistogram` has run; it is
  identified by the constraints it was built from. -/
  histogram : Option (List ConfigConstraint) := none
  deriving DecidableEq, Repr

/-- The registry `graph::GraphComponent::components`: one weak pointer per
id, `none` when the component it pointed to is gone. -/
abbrev Components := List (Option GraphComponent)

/-- Message of the `std::out_of_range` raised by `GraphComponent::get`. -/
def outOfRangeMsg : String := "ID out of range."

/-- The lookup `graph::GraphComponent::get (id).lock ()`: an id outside the
registry raises `std::out_of_range`, an expired entry yields a null pointer. -/
def GraphComponent.get (components : Components) (id : Int) :
    Except String (Option GraphComponent) :=
  if id < 0 ∨ (components.length : Int) ≤ id then .error outOfRangeMsg
  else .ok (Option.join (components[id.toNat]?))

/-- The component registered under `id`, if it is alive. -/
def Components.at (components : Components) (id : Nat) : Option GraphComponent :=
  Option.join (components[id]?)

/-- The cast `HPP_DYNAMIC_PTR_CAST (T, p)` for `T` a graph component class:
the pointer when the dynamic type derives from `T`, null otherwise. -/
def dynamicCast (accepts : Kind → Bool) (p : Option GraphComponent) :
    Option GraphComponent :=
  match p with
  | none => none
  | some c => if accepts c.kind then some c else none

/-- Dynamic types deriving from `graph::Node`. -/
def Kind.isNode : Kind → Bool
  | .node => true
  | _ => false

/-- Dynamic types deriving from `graph::Edge`. -/
def Kind.isEdge : Kind → Bool
  | .edge => true
  | .waypointEdge => true
  | .levelSetEdge => true
  | _ => false

/-- Dynamic types deriving from `graph::WaypointEdge`. -/
def Kind.isWaypointEdge : Kind → Bool
  | .waypointEdge => true
  | _ => false

/-- Dynamic types deriving from `graph::LevelSetEdge`. -/
def Kind.isLevelSetEdge : Kind → Bool
  | .levelSetEdge => true
  | _ => false

/-- Dynamic types deriving from `graph::NodeSelector`. -/
def Kind.isNodeSelector : Kind → Bool
  | .nodeSelector => true
  | _ => false

/-- The method `GraphComponent::addNumericalConstraint`. -/
def GraphComponent.addNumericalConstraint (c : GraphComponent)
    (nc : NumericalConstraint) : GraphComponent :=
  { c with numericalConstraints := c.numericalConstraints ++ [nc] }

/-- The method `GraphComponent::addLockedJointConstraint`. -/
def GraphComponent.addLockedJointConstraint (c : GraphComponent)
    (l : Option LockedJoint) : GraphComponent :=
  { c with lockedJoints := c.lockedJoints ++ [l] }

/-- The method `Node::addNumericalConstraintForPath`. -/
def GraphComponent.addNumericalConstraintForPath (c : GraphComponent)
    (nc : NumericalConstraint) : GraphComponent :=
  { c with numericalConstraintsForPath := c.numericalConstraintsForPath ++ [nc] }

/-- The method `LevelSetEdge::insertConfigConstraint`. -/
def GraphComponent.insertConfigConstraint (c : GraphComponent)
    (k : ConfigConstraint) : GraphComponent :=
  { c with configConstraints := c.configConstraints ++ [k] }

/-- The method `LevelSetEdge::buildHistogram`. -/
def GraphComponent.buildHistogram (c : GraphComponent) : GraphComponent :=
  { c with histogram := some c.configConstraints }

/-! ## The problem solver -/

/-- The robot, as far as the servants look at it. -/
structure Robot where
  configSize : Nat
  deriving DecidableEq, Repr

/-- A path returned by the planner: its length and its value at a parameter. -/
structure Path where
  length : Double
  eval : Double → Configuration_t

/-- A `ManipulationPlanner`: its single extension step either throws, or
reports failure (`none`), or reports success with a path. -/
structure ManipulationPlanner where
  extend : Configuration_t → Configuration_t → Except String (Option Path)

/-- A `ConstraintSet` built by the graph. Projection writes through a
fixed-size reference, so it keeps the size of the configuration. -/
structure ConstraintSet where
  /-- The call `offsetFromConfig (q)`: the anchored set, or a throw. -/
  offsetFromConfig : Configuration_t → Except String Unit
  /-- The call `apply (q)`: success flag and projected configuration,
  or a throw. -/
  apply : Configuration_t → Except String (Bool × Configuration_t)
  apply_size : ∀ q r, apply q = .ok r → r.2.length = q.length
  /-- The residual error of `configProjector ()`, when there is one. -/
  residualError : Option Double

/-- The problem solver `problemSolver_`, as far as the servants use it. -/
structure ProblemSolver where
  /-- The call `robot ()`: null until a composite robot is built. The problem
  `problem ()` exists from then on. -/
  robot : Option Robot
  maxIterations : Nat
  errorThreshold : Double
  /-- The call `numericalConstraint (name)`: null for a name that was never
  registered. -/
  numericalConstraint : String → Option DifferentiableFunction
  comparisonType : String → ComparisonType
  /-- The call `lockedJoint (name)`: it throws, or returns a pointer that may
  be null. -/
  lockedJoint : String → Except String (Option LockedJoint)
  /-- The graph set by `constraintGraph (graph)`, by id. -/
  constraintGraph : Option Nat
  /-- The graph set by `problem ()->constraintGraph (graph)`, by id. -/
  problemConstraintGraph : Option Nat
  /-- The histograms held by `roadmap ()` when it is a
  `hpp::manipulation::Roadmap`, `none` when the cast to that class fails. -/
  roadmap : Option (List (List ConfigConstraint))
  /-- The call `pathPlanner ()` cast to `ManipulationPlanner`. -/
  manipulationPlanner : Option ManipulationPlanner
  /-- The call `constraintGraph ()->configConstraint (components)` on the
  components with the given ids. -/
  configConstraint : List Nat → Except String ConstraintSet

/-- State seen by the two servants: the problem solver they share, the
member `graph_` of the graph servant, and the component registry. -/
structure Server where
  problemSolver : ProblemSolver
  graph_ : Option Nat
  components : Components

/-- Replace the component registered under `id`. -/
def Server.setComponent (s : Server) (id : Nat) (c : GraphComponent) : Server :=
  { s with components := s.components.set id (some c) }

namespace impl

/-! ## `Graph::setNumericalConstraints`, `Graph::setLockedDofConstraints` -/

/-- The `for` loop of `Graph::setNumericalConstraints` over the names still
to process, with the component as the loop has left it so far. -/
def Graph.setNumericalConstraints.loop (ps : ProblemSolver) :
    Names_t → GraphComponent → Except Exn Unit × GraphComponent
  | [], component => (.ok (), component)
  | name :: rest, component =>
    if (ps.numericalConstraint name).isNone then
      (.error (.Error "The numerical function does not exist."), component)
    else
      loop ps rest (component.addNumericalConstraint
        (NumericalConstraint.create (ps.numericalConstraint name)
          (ps.comparisonType name)))

/-- The method `Graph::setNumericalConstraints`. -/
def Graph.setNumericalConstraints (s : Server) (graphComponentId : Int)
    (constraintNames : Names_t) : Except Exn Unit × Server :=
  match GraphComponent.get s.components graphComponentId with
  | .error msg => (.error (.stdException msg), s)
  | .ok none => (.error (.Error "The ID does not exist."), s)
  | .ok (some component) =>
    if constraintNames.length > 0 then
      let r := Graph.setNumericalConstraints.loop s.problemSolver constraintNames component
      (r.1, s.setComponent graphComponentId.toNat r.2)
    else (.ok (), s)

/-- The `for` loop of `Graph::setLockedDofConstraints`; a throw of
`lockedJoint` is caught and converted by the enclosing handler. -/
def Graph.setLockedDofConstraints.loop (ps : ProblemSolver) :
    Names_t → GraphComponent → Except Exn Unit × GraphComponent
  | [], component => (.ok (), component)
  | name :: rest, component =>
    match ps.lockedJoint name with
    | .error msg => (.error (.Error msg), component)
    | .ok l => loop ps rest (component.addLockedJointConstraint l)

/-- The method `Graph::setLockedDofConstraints`. -/
def Graph.setLockedDofConstraints (s : Server) (graphComponentId : Int)
    (constraintNames : Names_t) : Except Exn Unit × Server :=
  match GraphComponent.get s.components graphComponentId with
  | .error msg => (.error (.stdException msg), s)
  | .ok none => (.error (.Error "The ID does not exist."), s)
  | .ok (some component) =>
    if constraintNames.length > 0 then
      let r := Graph.setLockedDofConstraints.loop s.problemSolver constraintNames component
      (r.1, s.setComponent graphComponentId.toNat r.2)
    else (.ok (), s)

/-- The method `Graph::setNumericalConstraintsForPath`: same loop as
`Graph::setNumericalConstraints`, without the test for a null function. -/
def Graph.setNumericalConstraintsForPath.loop (ps : ProblemSolver) :
    Names_t → GraphComponent → GraphComponent
  | [], n => n
  | name :: rest, n =>
    loop ps rest (n.addNumericalConstraintForPath
      (NumericalConstraint.create (ps.numericalConstraint name)
        (ps.comparisonType name)))

/-- The method `Graph::setNumericalConstraintsForPath`. -/
def Graph.setNumericalConstraintsForPath (s : Server) (nodeId : Int)
    (constraintNames : Names_t) : Except Exn Unit × Server :=
  match GraphComponent.get s.components nodeId with
  | .error msg => (.error (.Error msg), s)
  | .ok p =>
    match dynamicCast Kind.isNode p with
    | none => (.error (.Error "The nodes could not be found."), s)
    | some n =>
      if constraintNames.length > 0 then
        (.ok (), s.setComponent nodeId.toNat
          (Graph.setNumericalConstraintsForPath.loop s.problemSolver constraintNames n))
      else (.ok (), s)

/-! ## `Graph::createGraph` -/

/-- The method `Graph::createGraph`. The new graph registers itself, which
gives it the next free id. -/
def Graph.createGraph (s : Server) (graphName : String) : Except Exn Int × Server :=
  match s.problemSolver.robot with
  | none =>
    (.error (.Error "You should build a composite robot before creating a graph."), s)
  | some _ =>
    let id := s.components.length
    let graph : GraphComponent :=
      { id := id, kind := .graph, name := graphName,
        maxIterations := s.problemSolver.maxIterations,
        errorThreshold := s.problemSolver.errorThreshold }
    (.ok (id : Int),
      { problemSolver :=
          { s.problemSolver with
            constraintGraph := some id, problemConstraintGraph := some id },
        graph_ := some id,
        components := s.components ++ [some graph] })

end impl

/-! ## Edges -/

/-- The edge of dynamic type `kind` from `nodeFrom` to `nodeTo` that
`Node::linkTo` builds with its factory and then gives the flag, registered
under `id`. -/
def Edge.create (kind : Kind) (id nodeFrom nodeTo : Nat) (isInNodeFrom : Bool) :
    GraphComponent :=
  { id := id, kind := kind, nodeFrom := nodeFrom, nodeTo := nodeTo,
    isInNodeFrom := isInNodeFrom }

/-- The registry once `linkTo` has inserted the edge `L` with weight `w` in the
neighbours of the node `from_` registered under `nodeFrom`. -/
def withNeighbor (components : Components) (nodeFrom : Nat) (from_ : GraphComponent)
    (L : Nat) (w : Int) : Components :=
  components.set nodeFrom (some { from_ with neighbors := from_.neighbors ++ [(L, w)] })

/-- The method `Node::linkTo (to, w, isInNodeFrom, create)` called on the
node `from_` registered under `nodeFrom`: the new edge of dynamic type `kind`
is registered, inserted in the neighbours of the node with weight `w`, and
given the flag. Returns the id of the new edge. -/
def Node.linkTo (components : Components) (nodeFrom : Nat) (from_ : GraphComponent)
    (nodeTo : Nat) (w : Int) (isInNodeFrom : Bool) (kind : Kind) : Nat × Components :=
  let id := components.length
  (id, withNeighbor components nodeFrom from_ id w
    ++ [some (Edge.create kind id nodeFrom nodeTo isInNodeFrom)])

/-- Set the name of the component registered under `id`, if it is alive. -/
def Components.rename (components : Components) (id : Nat) (name : String) : Components :=
  match components.at id with
  | none => components
  | some c => components.set id (some { c with name := name })

namespace impl

/-- Resolution of the two ends shared by `createEdge`, `createWaypointEdge`
and `createLevelSetEdge`: both lookups, then both casts to `graph::Node`. -/
def Graph.resolveNodes (components : Components) (nodeFromId nodeToId : Int) :
    Except Exn (GraphComponent × GraphComponent) :=
  match GraphComponent.get components nodeFromId with
  | .error msg => .error (.Error msg)
  | .ok pf =>
    match GraphComponent.get components nodeToId with
    | .error msg => .error (.Error msg)
    | .ok pt =>
      match dynamicCast Kind.isNode pf, dynamicCast Kind.isNode pt with
      | some from_, some to_ => .ok (from_, to_)
      | _, _ => .error (.Error "The nodes could not be found.")

/-- The method `Graph::createEdge`. -/
def Graph.createEdge (s : Server) (nodeFromId nodeToId : Int) (edgeName : String)
    (w : Int) (isInNodeFrom : Bool) : Except Exn Int × Server :=
  match Graph.resolveNodes s.components nodeFromId nodeToId with
  | .error e => (.error e, s)
  | .ok (from_, _) =>
    let r := Node.linkTo s.components nodeFromId.toNat from_ nodeToId.toNat w isInNodeFrom .edge
    (.ok (r.1 : Int), { s with components := r.2.rename r.1 edgeName })

/-- The method `Graph::createLevelSetEdge`. -/
def Graph.createLevelSetEdge (s : Server) (nodeFromId nodeToId : Int) (edgeName : String)
    (w : Int) (isInNodeFrom : Bool) : Except Exn Int × Server :=
  match Graph.resolveNodes s.components nodeFromId nodeToId with
  | .error e => (.error e, s)
  | .ok (from_, _) =>
    let r := Node.linkTo s.components nodeFromId.toNat from_ nodeToId.toNat w isInNodeFrom
      .levelSetEdge
    (.ok (r.1 : Int), { s with components := r.2.rename r.1 edgeName })

end impl

/-! ## Waypoint edges -/

/-- Set the member `waypoint_` of the component registered under `id`. -/
def Components.setWaypoint (components : Components) (id : Nat) (w : Nat × Nat) :
    Components :=
  match components.at id with
  | none => components
  | some c => components.set id (some { c with waypoint := some w })

/-- The waypoint node of depth `d` that `createWaypoint` registers under `L`. -/
def waypointNode (bname : String) (d L : Nat) : GraphComponent :=
  { id := L, kind := .node, name := bname ++ "_n" ++ toString d }

/-- The inner edge of depth `d` that `createWaypoint` registers under `L + 1`,
from `nodeFrom` to the waypoint node registered under `L`, before it gets a
waypoint of its own. -/
def waypointEdgeNew (nodeFrom : Nat) (bname : String) (kind : Kind) (d L : Nat) :
    GraphComponent :=
  { id := L + 1, kind := kind, name := bname ++ "_e" ++ toString d,
    nodeFrom := nodeFrom, nodeTo := L }

/-- The library method `WaypointEdge::createWaypoint (d, bname)`, called on
the waypoint edge registered under `self` whose source node is `nodeFrom`.
It is documented as creating the inner waypoints, `d` being their number
minus one: it creates a node named `bname_n<d>` and an inner edge named
`bname_e<d>` from `nodeFrom` to that node, stores the pair as `waypoint_`
of `self`, and the inner edge is a plain edge when `d` is zero and otherwise
a waypoint edge on which `createWaypoint (d - 1, bname)` has run. Both
servant methods that read `waypoint_` dereference it unguarded, also after
`createWaypoint (0, ...)`. The interpolation flag of the inner edges is left
at its default: no method of the servant reads it. -/
def WaypointEdge.createWaypoint (nodeFrom : Nat) (bname : String) :
    Nat → Nat → Components → Components
  | 0, self, components =>
    let nodeId := components.length
    (components ++ [some (waypointNode bname 0 nodeId),
        some (waypointEdgeNew nodeFrom bname .edge 0 nodeId)]).setWaypoint self
      (nodeId + 1, nodeId)
  | d + 1, self, components =>
    let nodeId := components.length
    (createWaypoint nodeFrom bname d (nodeId + 1)
      (components ++ [some (waypointNode bname (d + 1) nodeId),
        some (waypointEdgeNew nodeFrom bname .waypointEdge (d + 1) nodeId)])).setWaypoint self
      (nodeId + 1, nodeId)

/-- The accessor `cur->waypoint <T> ()`: the inner edge of `cur`, cast to the
edge class `T`. -/
def WaypointEdge.waypoint (accepts : Kind → Bool) (components : Components)
    (cur : GraphComponent) : Option GraphComponent :=
  match cur.waypoint with
  | none => none
  | some w => dynamicCast accepts (components.at w.1)

/-- The CORBA structure `GraphComp`. -/
structure GraphComp where
  name : String
  id : Int
  deriving DecidableEq, Repr

/-- The CORBA structure `GraphElements`. -/
structure GraphElements where
  nodes : List GraphComp
  edges : List GraphComp
  deriving DecidableEq, Repr

namespace impl

/-- The `while` loop of `Graph::createWaypointEdge`: `cur` and the list
`edges` after at most `fuel` tests of the loop condition, `none` if the loop
is still running then. -/
def Graph.createWaypointEdge.walk (components : Components) :
    Nat → GraphComponent → List GraphComponent →
      Option (GraphComponent × List GraphComponent)
  | 0, _, _ => none
  | fuel + 1, cur, edges =>
    match WaypointEdge.waypoint Kind.isWaypointEdge components cur with
    | some next => walk components fuel next (next :: edges)
    | none => some (cur, edges)

/-- The `for` loop of `Graph::createWaypointEdge` over `edges`: the entries
written to `e` and to `n`, `none` when a pointer it goes through is null. -/
def Graph.createWaypointEdge.fill (components : Components) :
    List (Option GraphComponent) → Option (List GraphComp × List GraphComp)
  | [] => some ([], [])
  | none :: _ => none
  | some it :: rest =>
    match components.at it.nodeTo with
    | none => none
    | some to_ =>
      match fill components rest with
      | none => none
      | some (e, n) =>
        some ((⟨it.name, it.id⟩ : GraphComp) :: e, (⟨to_.name, to_.id⟩ : GraphComp) :: n)

/-- The end of `Graph::createWaypointEdge`, from the declaration of `edges`
on: what is written to `out_elmts` for the waypoint edge registered under
`edgeId`. The walk from that edge is given one step more than there are
components: it can only need more when it runs in a cycle, that is, when the
loop never ends. -/
def Graph.createWaypointEdge.elements (components : Components) (edgeId : Nat) :
    Except Exn GraphElements :=
  match components.at edgeId with
  | none => .error .nullDereference
  | some edge =>
    match Graph.createWaypointEdge.walk components (components.length + 1) edge [] with
    | none => .error .endless
    | some (cur, edges) =>
      match Graph.createWaypointEdge.fill components
          (WaypointEdge.waypoint Kind.isEdge components cur :: edges.map some) with
      | none => .error .nullDereference
      | some (e, n) =>
        .ok { nodes := n, edges := e ++ [(⟨edge.name, edge.id⟩ : GraphComp)] }

/-- The method `Graph::createWaypointEdge`; the value is `out_elmts`. The
argument of `createWaypoint` is `nb - 1` converted to `unsigned`. -/
def Graph.createWaypointEdge (s : Server) (nodeFromId nodeToId : Int)
    (edgeBaseName : String) (nb w : Int) (isInNodeFrom : Bool) :
    Except Exn GraphElements × Server :=
  match Graph.resolveNodes s.components nodeFromId nodeToId with
  | .error e => (.error e, s)
  | .ok (from_, _) =>
    let r := Node.linkTo s.components nodeFromId.toNat from_ nodeToId.toNat w isInNodeFrom
      .waypointEdge
    let named := r.2.rename r.1 (edgeBaseName ++ "_e" ++ toString nb)
    let built := WaypointEdge.createWaypoint nodeFromId.toNat edgeBaseName
      ((nb - 1) % 2 ^ 32).toNat r.1 named
    (Graph.createWaypointEdge.elements built r.1, { s with components := built })

/-- The method `Graph::getWaypoint`; the value is the returned id and the
output parameter `nodeId`. -/
def Graph.getWaypoint (s : Server) (edgeId : Int) : Except Exn (Int × Int) × Server :=
  match GraphComponent.get s.components edgeId with
  | .error msg => (.error (.Error msg), s)
  | .ok p =>
    match dynamicCast Kind.isWaypointEdge p with
    | none => (.error (.Error "The edge could not be found."), s)
    | some edge =>
      match edge.waypoint, WaypointEdge.waypoint Kind.isEdge s.components edge with
      | some w, some waypoint =>
        let c1 := s.components.rename w.1 (edge.name ++ "_waypoint")
        let edgeName := match c1.at edgeId.toNat with
          | some e1 => e1.name
          | none => edge.name
        match c1.at waypoint.nodeTo with
        | none => (.error .nullDereference, { s with components := c1 })
        | some to_ =>
          (.ok ((waypoint.id : Int), (to_.id : Int)),
            { s with components := c1.rename waypoint.nodeTo (edgeName ++ "_waypoint_node") })
      | _, _ => (.error .nullDereference, s)

/-! ## `Graph::setLevelSetConstraints` -/

/-- The first `for` loop of `Graph::setLevelSetConstraints`, over the names
of numerical constraints. -/
def Graph.setLevelSetConstraints.numerical (ps : ProblemSolver) :
    Names_t → GraphComponent → GraphComponent
  | [], edge => edge
  | name :: rest, edge =>
    numerical ps rest (edge.insertConfigConstraint
      (.numerical (NumericalConstraint.create (ps.numericalConstraint name)
        (ps.comparisonType name))))

/-- The second `for` loop of `Graph::setLevelSetConstraints`, over the names
of locked joints; a throw of `lockedJoint` ends it. -/
def Graph.setLevelSetConstraints.locked (ps : ProblemSolver) :
    Names_t → GraphComponent → Except Exn Unit × GraphComponent
  | [], edge => (.ok (), edge)
  | name :: rest, edge =>
    match ps.lockedJoint name with
    | .error msg => (.error (.Error msg), edge)
    | .ok l => locked ps rest (edge.insertConfigConstraint (.locked l))

/-- The method `Graph::setLevelSetConstraints`. -/
def Graph.setLevelSetConstraints (s : Server) (edgeId : Int)
    (numericalConstraintNames lockedDofNames : Names_t) : Except Exn Unit × Server :=
  match GraphComponent.get s.components edgeId with
  | .error msg => (.error (.Error msg), s)
  | .ok p =>
    match dynamicCast Kind.isLevelSetEdge p with
    | none => (.error (.Error "The edge could not be found."), s)
    | some edge =>
      let r := Graph.setLevelSetConstraints.locked s.problemSolver lockedDofNames
        (Graph.setLevelSetConstraints.numerical s.problemSolver numericalConstraintNames edge)
      match r.1 with
      | .error e => (.error e, s.setComponent edgeId.toNat r.2)
      | .ok _ =>
        match s.problemSolver.roadmap with
        | none =>
          (.error (.Error "The roadmap is not of type hpp::manipulation::Roadmap."),
            s.setComponent edgeId.toNat r.2)
        | some histograms =>
          (.ok (),
            { s with
              problemSolver :=
                { s.problemSolver with
                  roadmap := some (histograms ++ [r.2.configConstraints]) },
              components := s.components.set edgeId.toNat (some r.2.buildHistogram) })

/-! ## The problem servant -/

/-- Element-wise copy of `size` entries between a sequence and a vector, as
done by the `for` loops of `problem.impl.cc`. -/
def copyEntries (size : Nat) (source : List Double) : List Double :=
  (List.range size).map (fun i => source.getD i ⟨0⟩)

/-- The function `floatSeqToConfig`. -/
def floatSeqToConfig (ps : ProblemSolver) (dofArray : floatSeq) :
    Except Exn Configuration_t :=
  let configDim := dofArray.length
  match ps.robot with
  | none => .error .nullDereference
  | some robot =>
    if configDim ≠ robot.configSize then
      .error (.stdException "robot nb dof is different from config size")
    else .ok (copyEntries configDim dofArray)

/-- What a handler `catch (std::exception& e) { throw Error (e.what ()); }`
makes of what is raised below it. -/
def Exn.converted : Exn → Exn
  | .stdException msg => .Error msg
  | e => e

/-- The `for` loop of `Problem::applyConstraints` (`accepts` = nodes, `what`
= "node") and of `Problem::applyConstraintsWithOffset` (edges, "edge"): the
ids of the components collected. -/
def Problem.resolve (accepts : Kind → Bool) (what : String) (components : Components) :
    List Int → List Nat → Except Exn (List Nat)
  | [], found => .ok found
  | id :: rest, found =>
    match GraphComponent.get components id with
    | .error msg => .error (.Error msg)
    | .ok p =>
      match dynamicCast accepts p with
      | none => .error (.Error ("ID " ++ toString id ++ " is not an " ++ what))
      | some c => resolve accepts what components rest (found ++ [c.id])

/-- The common end of the two projection methods: `floatSeqToConfig` on the
input, `apply`, and the copy to `output`. The value is the returned flag,
`output`, and the residual error when the set has a projector. -/
def Problem.project (ps : ProblemSolver) (constraint : ConstraintSet) (input : floatSeq) :
    Except Exn (Bool × floatSeq × Option Double) :=
  match floatSeqToConfig ps input with
  | .error e => .error e
  | .ok config =>
    match constraint.apply config with
    | .error msg => .error (.Error msg)
    | .ok r => .ok (r.1, copyEntries r.2.length r.2, constraint.residualError)

/-- The method `Problem::applyConstraints`. -/
def Problem.applyConstraints (s : Server) (IDnodes : List Int) (input : floatSeq) :
    Except Exn (Bool × floatSeq × Option Double) :=
  if IDnodes.length = 0 then .error (.Error "ID lists is empty.")
  else
    match Problem.resolve Kind.isNode "node" s.components IDnodes [] with
    | .error e => .error e
    | .ok nodes =>
      match s.problemSolver.constraintGraph with
      | none => .error .nullDereference
      | some _ =>
        match s.problemSolver.configConstraint nodes with
        | .error msg => .error (.Error msg)
        | .ok constraint => Problem.project s.problemSolver constraint input

/-- The method `Problem::applyConstraintsWithOffset`. -/
def Problem.applyConstraintsWithOffset (s : Server) (IDedges : List Int)
    (qnear input : floatSeq) : Except Exn (Bool × floatSeq × Option Double) :=
  if IDedges.length = 0 then .error (.Error "ID lists is empty.")
  else
    match Problem.resolve Kind.isEdge "edge" s.components IDedges [] with
    | .error e => .error e
    | .ok edges =>
      match s.problemSolver.constraintGraph with
      | none => .error .nullDereference
      | some _ =>
        match s.problemSolver.configConstraint edges with
        | .error msg => .error (.Error msg)
        | .ok constraint =>
          match floatSeqToConfig s.problemSolver qnear with
          | .error e => .error (Exn.converted e)
          | .ok qoffset =>
            match constraint.offsetFromConfig qoffset with
            | .error msg => .error (.Error msg)
            | .ok _ => Problem.project s.problemSolver constraint input

/-- The method `Problem::extend`; the value is `output`. -/
def Problem.extend (s : Server) (q_near q_rand : floatSeq) : Except Exn floatSeq :=
  match floatSeqToConfig s.problemSolver q_near with
  | .error e => .error e
  | .ok cfg_near =>
    match floatSeqToConfig s.problemSolver q_rand with
    | .error e => .error e
    | .ok cfg_rand =>
      match s.problemSolver.manipulationPlanner with
      | none => .error (.Error "The planner must be a ManipulationPlanner")
      | some planner =>
        match planner.extend cfg_near cfg_rand with
        | .error msg => .error (.Error msg)
        | .ok (some path) =>
          let cfg_new := path.eval path.length
          .ok (copyEntries cfg_new.length cfg_new)
        | .ok none => .ok (copyEntries cfg_near.length cfg_near)

end impl

/-! ## A small session used to run the methods -/

/-- A constraint set whose projection accepts every configuration as it is. -/
def acceptAll : ConstraintSet where
  offsetFromConfig := fun _ => .ok ()
  apply := fun q => .ok (true, q)
  apply_size := by
    intro q r h
    cases h
    rfl
  residualError := none

/-- A problem solver with a robot of configuration size 2, one numerical
constraint "grasp", one locked joint "lock" (any other locked-joint name
makes the lookup throw), a manipulation roadmap without histogram, and a
manipulation planner whose extension step always fails. -/
def demoSolver : ProblemSolver where
  robot := some ⟨2⟩
  maxIterations := 20
  errorThreshold := ⟨1⟩
  numericalConstraint := fun name => if name = "grasp" then some ⟨"grasp"⟩ else none
  comparisonType := fun _ => ⟨0⟩
  lockedJoint := fun name =>
    if name = "lock" then .ok (some ⟨"lock"⟩) else .error "No locked joint with this name."
  constraintGraph := some 0
  problemConstraintGraph := some 0
  roadmap := some []
  manipulationPlanner := some ⟨fun _ _ => .ok none⟩
  configConstraint := fun _ => .ok acceptAll

/-- A session after `createGraph`, `createSubGraph`, two `createNode` and
one `createLevelSetEdge`: graph 0, subgraph 1, nodes 2 and 3, edge 4. -/
def demoServer : Server where
  problemSolver := demoSolver
  graph_ := some 0
  components :=
    [some { id := 0, kind := .graph, name := "G", maxIterations := 20, errorThreshold := ⟨1⟩ },
     some { id := 1, kind := .nodeSelector, name := "S" },
     some { id := 2, kind := .node, name := "N1", neighbors := [(4, 1)] },
     some { id := 3, kind := .node, name := "N2" },
     some { id := 4, kind := .levelSetEdge, name := "L", nodeFrom := 2, nodeTo := 3,
            isInNodeFrom := true }]

/-- The session `demoServer` before any composite robot is built. -/
def noRobotServer : Server where
  problemSolver := { demoSolver with robot := none, constraintGraph := none,
                                     problemConstraintGraph := none }
  graph_ := none
  components := []

/-- The session `demoServer` with a manipulation planner whose extension step
always succeeds, with a path of length 7 whose value at a parameter `t` is
the configuration `(t, t)`. -/
def steppingServer : Server :=
  { demoServer with
    problemSolver :=
      { demoSolver with
        manipulationPlanner := some ⟨fun _ _ => .ok (some ⟨⟨7⟩, fun t => [t, t]⟩)⟩ } }

/-- The session `demoServer` with a path planner that is not a
`ManipulationPlanner`. -/
def otherPlannerServer : Server :=
  { demoServer with problemSolver := { demoSolver with manipulationPlanner := none } }

/-- The session `demoServer` with a manipulation planner whose extension step
throws. -/
def throwingServer : Server :=
  { demoServer with
    problemSolver :=
      { demoSolver with
        manipulationPlanner := some ⟨fun _ _ => .error "no edge could be selected"⟩ } }

/-- The session `demoServer` with a problem solver whose locked-joint lookup
returns a null pointer, instead of throwing, for a name it does not hold. -/
def nullLookupServer : Server :=
  { demoServer with
    problemSolver :=
      { demoSolver with
        lockedJoint := fun name => if name = "lock" then .ok (some ⟨"lock"⟩) else .ok none } }

/-! ## Vocabulary of the statements -/

/-- The numerical constraint that the servant builds for a name. -/
def numericalOf (ps : ProblemSolver) (name : String) : NumericalConstraint :=
  NumericalConstraint.create (ps.numericalConstraint name) (ps.comparisonType name)

/-- A name resolves as a numerical constraint when the problem solver holds a
function under it. -/
def resolvesNumerical (ps : ProblemSolver) (name : String) : Bool :=
  (ps.numericalConstraint name).isSome

/-- A name resolves as a locked joint when its lookup does not throw. -/
def resolvesLocked (ps : ProblemSolver) (name : String) : Bool :=
  match ps.lockedJoint name with
  | .ok _ => true
  | .error _ => false

/-- The pointer that the lookup of a locked joint returns (null when it throws). -/
def lockedOf (ps : ProblemSolver) (name : String) : Option LockedJoint :=
  match ps.lockedJoint name with
  | .ok l => l
  | .error _ => none

/-- The numerical constraints attached to the component registered under `id`. -/
def Server.numericalConstraintsOf (s : Server) (id : Nat) : Option (List NumericalConstraint) :=
  (s.components.at id).map (fun c => c.numericalConstraints)

/-- The locked joints attached to the component registered under `id`. -/
def Server.lockedJointsOf (s : Server) (id : Nat) : Option (List (Option LockedJoint)) :=
  (s.components.at id).map (fun c => c.lockedJoints)

/-- The foliation constraints of the level-set edge registered under `id`. -/
def Server.configConstraintsOf (s : Server) (id : Nat) : Option (List ConfigConstraint) :=
  (s.components.at id).map (fun c => c.configConstraints)

/-- The histogram of the level-set edge registered under `id`. -/
def Server.histogramOf (s : Server) (id : Nat) : Option (Option (List ConfigConstraint)) :=
  (s.components.at id).map (fun c => c.histogram)

/-- The foliation constraint that the servant inserts for a numerical name. -/
def numericalConfigOf (ps : ProblemSolver) (name : String) : ConfigConstraint :=
  .numerical (numericalOf ps name)

/-- The foliation constraint that the servant inserts for a locked-joint name. -/
def lockedConfigOf (ps : ProblemSolver) (name : String) : ConfigConstraint :=
  .locked (lockedOf ps name)

/-- The inner edge of depth `d` that `createWaypoint` registers under `L + 1`,
as it stands when `createWaypoint` returns: a plain edge at depth zero, a
waypoint edge whose own waypoint is the next pair otherwise. -/
def waypointInner (nodeFrom : Nat) (bname : String) : Nat → Nat → GraphComponent
  | 0, L => waypointEdgeNew nodeFrom bname .edge 0 L
  | d + 1, L =>
    { waypointEdgeNew nodeFrom bname .waypointEdge (d + 1) L with
      waypoint := some (L + 3, L + 2) }

/-- The components that `createWaypoint (d, bname)` appends to a registry of
length `L`. -/
def waypointBlock (nodeFrom : Nat) (bname : String) : Nat → Nat → Components
  | 0, L => [some (waypointNode bname 0 L), some (waypointInner nodeFrom bname 0 L)]
  | d + 1, L =>
    [some (waypointNode bname (d + 1) L), some (waypointInner nodeFrom bname (d + 1) L)]
      ++ waypointBlock nodeFrom bname d (L + 2)

/-- The inner edges of `waypointBlock` with their target nodes, outermost first. -/
def waypointPairs (nodeFrom : Nat) (bname : String) :
    Nat → Nat → List (GraphComponent × GraphComponent)
  | 0, L => [(waypointInner nodeFrom bname 0 L, waypointNode bname 0 L)]
  | d + 1, L =>
    (waypointInner nodeFrom bname (d + 1) L, waypointNode bname (d + 1) L)
      :: waypointPairs nodeFrom bname d (L + 2)

/-- The entry of `out_elmts` written for a component. -/
def GraphComp.of (c : GraphComponent) : GraphComp := ⟨c.name, c.id⟩

/-- The waypoint edge that `createWaypointEdge` links from `nodeFrom` to
`nodeTo` in a registry of length `L`, once it is named. -/
def namedWaypointEdge (nodeFrom nodeTo : Nat) (isInNodeFrom : Bool) (name : String)
    (L : Nat) : GraphComponent :=
  { Edge.create .waypointEdge L nodeFrom nodeTo isInNodeFrom with name := name }

/-- The waypoint edge that `createWaypointEdge` links from `nodeFrom` to
`nodeTo` in a registry of length `L`, as it stands when the call returns. -/
def outerWaypointEdge (nodeFrom nodeTo : Nat) (isInNodeFrom : Bool) (name : String)
    (L : Nat) : GraphComponent :=
  { namedWaypointEdge nodeFrom nodeTo isInNodeFrom name L with
    waypoint := some (L + 2, L + 1) }

/-- The argument that `createWaypointEdge` passes to `createWaypoint`: `nb - 1`
converted to `unsigned`. -/
def depthOf (nb : Int) : Nat := ((nb - 1) % 2 ^ 32).toNat

/-- The registry that `createWaypointEdge` leaves behind: the waypoint edge
registered after the components of `s`, then the inner waypoints. -/
def chainComponents (s : Server) (nodeFrom nodeTo : Nat) (from_ : GraphComponent) (w : Int)
    (isInNodeFrom : Bool) (name bname : String) (d : Nat) : Components :=
  (withNeighbor s.components nodeFrom from_ s.components.length w
      ++ [some (outerWaypointEdge nodeFrom nodeTo isInNodeFrom name s.components.length)])
    ++ waypointBlock nodeFrom bname d (s.components.length + 1)

/-- An id resolves to a Node when the registry holds a live component of
dynamic type `graph::Node` under it. -/
def resolvesToNode (components : Components) (id : Int) : Bool :=
  match GraphComponent.get components id with
  | .ok (some c) => c.kind.isNode
  | _ => false

/-- The plain edge that `createEdge` links from `nodeFrom` to `nodeTo` in a
registry of length `L`, once it is named. -/
def namedEdge (nodeFrom nodeTo : Nat) (isInNodeFrom : Bool) (name : String) (L : Nat) :
    GraphComponent :=
  { Edge.create .edge L nodeFrom nodeTo isInNodeFrom with name := name }

/-- The outgoing edges of the node registered under `id`, with their weights. -/
def Server.neighborsOf (s : Server) (id : Nat) : Option (List (Nat × Int)) :=
  (s.components.at id).map (fun c => c.neighbors)

/-- The path-only numerical constraints of the node registered under `id`. -/
def Server.numericalConstraintsForPathOf (s : Server) (id : Nat) :
    Option (List NumericalConstraint) :=
  (s.components.at id).map (fun c => c.numericalConstraintsForPath)

/-- The element lists that `createWaypointEdge` returns on `demoServer` for
three waypoints named after "approach" between nodes 2 and 3. -/
def demoChain : GraphElements :=
  { nodes := [⟨"approach_n0", 10⟩, ⟨"approach_n1", 8⟩, ⟨"approach_n2", 6⟩],
    edges := [⟨"approach_e0", 11⟩, ⟨"approach_e1", 9⟩, ⟨"approach_e2", 7⟩,
              ⟨"approach_e3", 5⟩] }

/-! # Properties -/

/-! ## The registry -/

theorem get_ok_bounds {components : Components} {id : Int} {p : Option GraphComponent}
    (h : GraphComponent.get components id = .ok p) :
    0 ≤ id ∧ id.toNat < components.length ∧ components.at id.toNat = p := by
  unfold GraphComponent.get at h
  split at h
  · cases h
  · rename_i hb
    push_neg at hb
    refine ⟨hb.1, by omega, ?_⟩
    cases h
    rfl

theorem at_set_self {components : Components} {i : Nat} (c : GraphComponent)
    (h : i < components.length) : Components.at (components.set i (some c)) i = some c := by
  simp [Components.at, h]

theorem at_set_other {components : Components} {i j : Nat} (c : Option GraphComponent)
    (h : i ≠ j) : Components.at (components.set i c) j = components.at j := by
  simp [Components.at, List.getElem?_set, h]

/-! ## Attaching constraints -/

theorem setNumericalConstraints_loop_eq (ps : ProblemSolver) (names : Names_t)
    (c : GraphComponent) :
    impl.Graph.setNumericalConstraints.loop ps names c =
      (if names.all (resolvesNumerical ps) then .ok ()
        else .error (.Error "The numerical function does not exist."),
       { c with numericalConstraints := c.numericalConstraints ++
          (names.takeWhile (resolvesNumerical ps)).map (numericalOf ps) }) := by
  induction names generalizing c with
  | nil => simp [impl.Graph.setNumericalConstraints.loop]
  | cons name rest ih =>
    unfold impl.Graph.setNumericalConstraints.loop
    cases hn : ps.numericalConstraint name with
    | none => simp [resolvesNumerical, hn, List.takeWhile]
    | some f =>
      simp [resolvesNumerical, hn, List.takeWhile, ih, numericalOf,
        GraphComponent.addNumericalConstraint]

theorem setLockedDofConstraints_loop_state (ps : ProblemSolver) (names : Names_t)
    (c : GraphComponent) :
    (impl.Graph.setLockedDofConstraints.loop ps names c).2 =
      { c with lockedJoints := c.lockedJoints ++
          (names.takeWhile (resolvesLocked ps)).map (lockedOf ps) } := by
  induction names generalizing c with
  | nil => simp [impl.Graph.setLockedDofConstraints.loop]
  | cons name rest ih =>
    unfold impl.Graph.setLockedDofConstraints.loop
    cases hn : ps.lockedJoint name with
    | error msg => simp [resolvesLocked, hn, List.takeWhile]
    | ok l =>
      simp [resolvesLocked, lockedOf, hn, List.takeWhile, ih,
        GraphComponent.addLockedJointConstraint]

theorem setLockedDofConstraints_loop_ok (ps : ProblemSolver) (names : Names_t)
    (c : GraphComponent) :
    ((impl.Graph.setLockedDofConstraints.loop ps names c).1 = .ok ()) ↔
      names.all (resolvesLocked ps) = true := by
  induction names generalizing c with
  | nil => simp [impl.Graph.setLockedDofConstraints.loop]
  | cons name rest ih =>
    unfold impl.Graph.setLockedDofConstraints.loop
    cases hn : ps.lockedJoint name with
    | error msg => simp [resolvesLocked, hn]
    | ok l => simp [resolvesLocked, hn, ih]

theorem takeWhile_length_lt_of_not_all {α : Type} (p : α → Bool) (l : List α)
    (h : l.all p = false) : (l.takeWhile p).length < l.length := by
  induction l with
  | nil => simp at h
  | cons a rest ih =>
    cases hp : p a with
    | false => simp [List.takeWhile, hp]
    | true =>
      have hrest : rest.all p = false := by
        simpa [List.all_cons, hp] using h
      simpa [List.takeWhile, hp] using ih hrest

/-- C1, as stated, fails: on the session `demoServer`, node 2 has no
constraint attached; `setNumericalConstraints` with the names "grasp"
(registered) and "missing" (not registered) fails, and afterwards the node
holds the constraint "grasp"; `setLockedDofConstraints` with "lock" and
"missing" fails likewise and afterwards the node holds the locked joint
"lock". -/
theorem failed_batch_is_partly_attached :
    (impl.Graph.setNumericalConstraints demoServer 2 ["grasp", "missing"]).1
        = .error (.Error "The numerical function does not exist.")
      ∧ demoServer.numericalConstraintsOf 2 = some []
      ∧ (impl.Graph.setNumericalConstraints demoServer 2 ["grasp", "missing"]).2.numericalConstraintsOf 2
        = some [⟨some ⟨"grasp"⟩, ⟨0⟩⟩]
      ∧ (impl.Graph.setLockedDofConstraints demoServer 2 ["lock", "missing"]).1
        = .error (.Error "No locked joint with this name.")
      ∧ demoServer.lockedJointsOf 2 = some []
      ∧ (impl.Graph.setLockedDofConstraints demoServer 2 ["lock", "missing"]).2.lockedJointsOf 2
        = some [some ⟨"lock"⟩] := by
  refine ⟨rfl, rfl, rfl, rfl, rfl, rfl⟩

/-- C1 (amended): for a component id that resolves to a live component, when
`setNumericalConstraints` (resp. `setLockedDofConstraints`) fails, some name
of the list does not resolve, and the component's attached list after the
call is its list before the call followed by the constraints of the names
that come before the first unresolved name, in list order; that name and the
names after it attach nothing. -/
theorem failed_batch_keeps_names_before_unresolved (s : Server) (id : Int)
    (names : Names_t) (c : GraphComponent)
    (hget : GraphComponent.get s.components id = .ok (some c)) :
    (∀ e, (impl.Graph.setNumericalConstraints s id names).1 = .error e →
      names.all (resolvesNumerical s.problemSolver) = false ∧
      (names.takeWhile (resolvesNumerical s.problemSolver)).length < names.length ∧
      (impl.Graph.setNumericalConstraints s id names).2.numericalConstraintsOf id.toNat =
        some (c.numericalConstraints ++
          (names.takeWhile (resolvesNumerical s.problemSolver)).map
            (numericalOf s.problemSolver))) ∧
    (∀ e, (impl.Graph.setLockedDofConstraints s id names).1 = .error e →
      names.all (resolvesLocked s.problemSolver) = false ∧
      (names.takeWhile (resolvesLocked s.problemSolver)).length < names.length ∧
      (impl.Graph.setLockedDofConstraints s id names).2.lockedJointsOf id.toNat =
        some (c.lockedJoints ++
          (names.takeWhile (resolvesLocked s.problemSolver)).map
            (lockedOf s.problemSolver))) := by
  obtain ⟨_, hlt, _⟩ := get_ok_bounds hget
  constructor
  · intro e he
    have hne : ¬ names.length = 0 := by
      intro h0
      simp [impl.Graph.setNumericalConstraints, hget, h0] at he
    have hpos : names.length > 0 := Nat.pos_of_ne_zero hne
    simp only [impl.Graph.setNumericalConstraints, hget, hpos, if_true,
      setNumericalConstraints_loop_eq] at he ⊢
    have hall : names.all (resolvesNumerical s.problemSolver) = false := by
      cases hb : names.all (resolvesNumerical s.problemSolver) with
      | false => rfl
      | true => simp [hb] at he
    refine ⟨hall, takeWhile_length_lt_of_not_all _ _ hall, ?_⟩
    simp [Server.numericalConstraintsOf, Server.setComponent, at_set_self _ hlt]
  · intro e he
    have hne : ¬ names.length = 0 := by
      intro h0
      simp [impl.Graph.setLockedDofConstraints, hget, h0] at he
    have hpos : names.length > 0 := Nat.pos_of_ne_zero hne
    simp only [impl.Graph.setLockedDofConstraints, hget, hpos, if_true] at he ⊢
    have hall : names.all (resolvesLocked s.problemSolver) = false := by
      cases hb : names.all (resolvesLocked s.problemSolver) with
      | false => rfl
      | true =>
        rw [(setLockedDofConstraints_loop_ok s.problemSolver names c).2 hb] at he
        cases he
    refine ⟨hall, takeWhile_length_lt_of_not_all _ _ hall, ?_⟩
    simp [Server.lockedJointsOf, Server.setComponent, at_set_self _ hlt,
      setLockedDofConstraints_loop_state]

/-- Witness for C1 (amended): on `demoServer`, the failing calls of the
counterexample leave node 2 with exactly the constraint named before the
unresolved name. -/
theorem failed_batch_keeps_names_before_unresolved_witness :
    (impl.Graph.setNumericalConstraints demoServer 2 ["grasp", "missing"]).2.numericalConstraintsOf 2
        = some ([] ++ (["grasp", "missing"].takeWhile (resolvesNumerical demoSolver)).map
            (numericalOf demoSolver))
      ∧ (impl.Graph.setLockedDofConstraints demoServer 2 ["lock", "missing"]).2.lockedJointsOf 2
        = some ([] ++ (["lock", "missing"].takeWhile (resolvesLocked demoSolver)).map
            (lockedOf demoSolver)) :=
  ⟨((failed_batch_keeps_names_before_unresolved demoServer 2 ["grasp", "missing"]
      { id := 2, kind := .node, name := "N1", neighbors := [(4, 1)] } rfl).1 _ rfl).2.2,
   ((failed_batch_keeps_names_before_unresolved demoServer 2 ["lock", "missing"]
      { id := 2, kind := .node, name := "N1", neighbors := [(4, 1)] } rfl).2 _ rfl).2.2⟩

/-! ## Level-set constraints -/

theorem setLevelSetConstraints_numerical_eq (ps : ProblemSolver) (names : Names_t)
    (edge : GraphComponent) :
    impl.Graph.setLevelSetConstraints.numerical ps names edge =
      { edge with configConstraints := edge.configConstraints ++
          names.map (numericalConfigOf ps) } := by
  induction names generalizing edge with
  | nil => simp [impl.Graph.setLevelSetConstraints.numerical]
  | cons name rest ih =>
    simp [impl.Graph.setLevelSetConstraints.numerical, ih, numericalOf, numericalConfigOf,
      GraphComponent.insertConfigConstraint]

theorem setLevelSetConstraints_locked_state (ps : ProblemSolver) (names : Names_t)
    (edge : GraphComponent) :
    (impl.Graph.setLevelSetConstraints.locked ps names edge).2 =
      { edge with configConstraints := edge.configConstraints ++
          (names.takeWhile (resolvesLocked ps)).map (lockedConfigOf ps) } := by
  induction names generalizing edge with
  | nil => simp [impl.Graph.setLevelSetConstraints.locked]
  | cons name rest ih =>
    unfold impl.Graph.setLevelSetConstraints.locked
    cases hn : ps.lockedJoint name with
    | error msg => simp [resolvesLocked, hn, List.takeWhile]
    | ok l =>
      simp [resolvesLocked, lockedOf, lockedConfigOf, hn, List.takeWhile, ih,
        GraphComponent.insertConfigConstraint]

theorem setLevelSetConstraints_locked_result (ps : ProblemSolver) (names : Names_t)
    (edge : GraphComponent) (h : names.all (resolvesLocked ps) = false) :
    ∃ msg, (impl.Graph.setLevelSetConstraints.locked ps names edge).1 = .error (.Error msg) := by
  induction names generalizing edge with
  | nil => simp at h
  | cons name rest ih =>
    unfold impl.Graph.setLevelSetConstraints.locked
    cases hn : ps.lockedJoint name with
    | error msg => exact ⟨msg, rfl⟩
    | ok l =>
      have hrest : rest.all (resolvesLocked ps) = false := by
        simpa [List.all_cons, resolvesLocked, hn] using h
      simpa using ih _ hrest

/-- C2, as stated, fails: on `demoServer`, level-set edge 4 has no foliation
constraint; `setLevelSetConstraints` with the numerical name "grasp"
(registered) and the locked-joint name "missing" (unknown) fails with an
error, and afterwards the edge holds the constraint "grasp". -/
theorem failed_level_set_batch_is_partly_attached :
    (impl.Graph.setLevelSetConstraints demoServer 4 ["grasp"] ["missing"]).1
        = .error (.Error "No locked joint with this name.")
      ∧ demoServer.configConstraintsOf 4 = some []
      ∧ (impl.Graph.setLevelSetConstraints demoServer 4 ["grasp"] ["missing"]).2.configConstraintsOf 4
        = some [.numerical ⟨some ⟨"grasp"⟩, ⟨0⟩⟩] := by
  refine ⟨rfl, rfl, rfl⟩

/-- C2 (amended): for an id that resolves to a LevelSetEdge, numerical names
that are all registered and locked-joint names of which one does not resolve
(its lookup throws), `setLevelSetConstraints` fails with an error, builds no
histogram and registers nothing with the roadmap, and the edge's foliation
constraint list after the call is its list before the call followed by the
constraints of all the numerical names and of the locked-joint names that
come before the first unresolved one, in order. -/
theorem failed_level_set_batch_keeps_names_before_unresolved (s : Server) (edgeId : Int)
    (numericalConstraintNames lockedDofNames : Names_t) (edge : GraphComponent)
    (hget : GraphComponent.get s.components edgeId = .ok (some edge))
    (hkind : edge.kind = .levelSetEdge)
    (hnum : numericalConstraintNames.all (resolvesNumerical s.problemSolver) = true)
    (hlock : lockedDofNames.all (resolvesLocked s.problemSolver) = false) :
    (∃ msg, (impl.Graph.setLevelSetConstraints s edgeId numericalConstraintNames
        lockedDofNames).1 = .error (.Error msg)) ∧
    (impl.Graph.setLevelSetConstraints s edgeId numericalConstraintNames
        lockedDofNames).2.configConstraintsOf edgeId.toNat =
      some (edge.configConstraints ++
        numericalConstraintNames.map (numericalConfigOf s.problemSolver) ++
        (lockedDofNames.takeWhile (resolvesLocked s.problemSolver)).map
          (lockedConfigOf s.problemSolver)) ∧
    (∀ name ∈ numericalConstraintNames,
      (numericalOf s.problemSolver name).function ≠ none) ∧
    (impl.Graph.setLevelSetConstraints s edgeId numericalConstraintNames
        lockedDofNames).2.histogramOf edgeId.toNat = some edge.histogram ∧
    (impl.Graph.setLevelSetConstraints s edgeId numericalConstraintNames
        lockedDofNames).2.problemSolver.roadmap = s.problemSolver.roadmap := by
  obtain ⟨_, hlt, _⟩ := get_ok_bounds hget
  obtain ⟨msg, hmsg⟩ := setLevelSetConstraints_locked_result s.problemSolver lockedDofNames
    (impl.Graph.setLevelSetConstraints.numerical s.problemSolver numericalConstraintNames edge)
    hlock
  have hcast : dynamicCast Kind.isLevelSetEdge (some edge) = some edge := by
    simp [dynamicCast, hkind, Kind.isLevelSetEdge]
  simp only [impl.Graph.setLevelSetConstraints, hget, hcast, hmsg]
  refine ⟨⟨msg, rfl⟩, ?_, ?_, ?_, rfl⟩
  · simp [Server.configConstraintsOf, Server.setComponent, at_set_self _ hlt,
      setLevelSetConstraints_locked_state, setLevelSetConstraints_numerical_eq]
  · intro name hname
    have h := List.all_eq_true.mp hnum name hname
    simp only [resolvesNumerical, Option.isSome_iff_exists] at h
    obtain ⟨f, hf⟩ := h
    simp [numericalOf, NumericalConstraint.create, hf]
  · simp [Server.histogramOf, Server.setComponent, at_set_self _ hlt,
      setLevelSetConstraints_locked_state, setLevelSetConstraints_numerical_eq]

/-- Witness for C2 (amended): the failing call of the counterexample. -/
theorem failed_level_set_batch_keeps_names_before_unresolved_witness :
    (impl.Graph.setLevelSetConstraints demoServer 4 ["grasp"] ["lock", "missing"]).2.configConstraintsOf 4
      = some [.numerical ⟨some ⟨"grasp"⟩, ⟨0⟩⟩, .locked (some ⟨"lock"⟩)] :=
  (failed_level_set_batch_keeps_names_before_unresolved demoServer 4 ["grasp"]
    ["lock", "missing"]
    { id := 4, kind := .levelSetEdge, name := "L", nodeFrom := 2, nodeTo := 3,
      isInNodeFrom := true } rfl rfl rfl rfl).2.1

/-! ## Projection and extension -/

/-- C3: with an empty id list, `applyConstraints` and
`applyConstraintsWithOffset` fail with the error "ID lists is empty.",
whatever the input configuration, `qnear`, the registry, the problem solver,
its constraint-set builder and its projector are: the outcome is fixed
before any of them is consulted. -/
theorem empty_id_list_is_rejected_first (s : Server) (qnear input : floatSeq) :
    impl.Problem.applyConstraints s [] input = .error (.Error "ID lists is empty.") ∧
    impl.Problem.applyConstraintsWithOffset s [] qnear input
      = .error (.Error "ID lists is empty.") := by
  constructor <;> rfl

/-! ## Waypoint edges -/

theorem at_append_left {components rest : Components} {i : Nat}
    (h : i < components.length) : Components.at (components ++ rest) i = components.at i := by
  simp [Components.at, List.getElem?_append_left h]

theorem at_append_right {components rest : Components} {i : Nat} :
    Components.at (components ++ rest) (components.length + i) = Components.at rest i := by
  simp [Components.at, List.getElem?_append_right]

theorem setWaypoint_append {components : Components} (rest : Components) {self : Nat}
    {c : GraphComponent} (w : Nat × Nat) (hlt : self < components.length)
    (hc : components.at self = some c) :
    Components.setWaypoint (components ++ rest) self w =
      components.set self (some { c with waypoint := some w }) ++ rest := by
  simp [Components.setWaypoint, at_append_left hlt, hc, List.set_append_left _ _ hlt]

theorem waypointBlock_length (nodeFrom : Nat) (bname : String) (d L : Nat) :
    (waypointBlock nodeFrom bname d L).length = 2 * (d + 1) := by
  induction d generalizing L with
  | zero => rfl
  | succ d ih => simp [waypointBlock, ih]; omega

theorem createWaypoint_eq (nodeFrom : Nat) (bname : String) (d : Nat) :
    ∀ (self : Nat) (components : Components) (c : GraphComponent),
      self < components.length → components.at self = some c →
      WaypointEdge.createWaypoint nodeFrom bname d self components =
        components.set self
            (some { c with waypoint := some (components.length + 1, components.length) })
          ++ waypointBlock nodeFrom bname d components.length := by
  induction d with
  | zero =>
    intro self components c hlt hc
    simp only [WaypointEdge.createWaypoint]
    rw [setWaypoint_append _ _ hlt hc]
    rfl
  | succ d ih =>
    intro self components c hlt hc
    simp only [WaypointEdge.createWaypoint]
    have hat : Components.at
        (components ++ [some (waypointNode bname (d + 1) components.length),
          some (waypointEdgeNew nodeFrom bname .waypointEdge (d + 1) components.length)])
        (components.length + 1)
        = some (waypointEdgeNew nodeFrom bname .waypointEdge (d + 1) components.length) := by
      rw [at_append_right]
      rfl
    rw [ih (components.length + 1) _ _ (by simp) hat]
    have hlen : (components ++ [some (waypointNode bname (d + 1) components.length),
          some (waypointEdgeNew nodeFrom bname .waypointEdge (d + 1) components.length)]).length
        = components.length + 2 := by simp
    rw [hlen, List.set_append_right _ _ (by omega)]
    simp only [Nat.add_sub_cancel_left, List.set_cons_succ, List.set_cons_zero,
      List.append_assoc]
    rw [setWaypoint_append _ _ hlt hc]
    rfl

theorem waypointBlock_succ_append (nodeFrom : Nat) (bname : String) (d : Nat)
    (pre : Components) :
    pre ++ waypointBlock nodeFrom bname (d + 1) pre.length =
      (pre ++ [some (waypointNode bname (d + 1) pre.length),
          some (waypointInner nodeFrom bname (d + 1) pre.length)])
        ++ waypointBlock nodeFrom bname d
          (pre ++ [some (waypointNode bname (d + 1) pre.length),
            some (waypointInner nodeFrom bname (d + 1) pre.length)]).length := by
  simp [waypointBlock]

theorem waypointBlock_at_inner (nodeFrom : Nat) (bname : String) (d : Nat)
    (pre : Components) :
    Components.at (pre ++ waypointBlock nodeFrom bname d pre.length) (pre.length + 1)
      = some (waypointInner nodeFrom bname d pre.length) := by
  rw [at_append_right]
  cases d <;> simp [waypointBlock, Components.at]

theorem waypointBlock_at_node (nodeFrom : Nat) (bname : String) (d : Nat)
    (pre : Components) :
    Components.at (pre ++ waypointBlock nodeFrom bname d pre.length) pre.length
      = some (waypointNode bname d pre.length) := by
  have h := @at_append_right pre (waypointBlock nodeFrom bname d pre.length) 0
  rw [Nat.add_zero] at h
  rw [h]
  cases d <;> simp [waypointBlock, Components.at]

theorem waypointPairs_at (nodeFrom : Nat) (bname : String) (d : Nat) :
    ∀ (pre : Components) (p : GraphComponent × GraphComponent),
      p ∈ waypointPairs nodeFrom bname d pre.length →
      Components.at (pre ++ waypointBlock nodeFrom bname d pre.length) p.1.nodeTo = some p.2 ∧
      Components.at (pre ++ waypointBlock nodeFrom bname d pre.length) p.1.id = some p.1 := by
  induction d with
  | zero =>
    intro pre p hp
    simp only [waypointPairs, List.mem_singleton] at hp
    subst hp
    exact ⟨waypointBlock_at_node nodeFrom bname 0 pre,
      waypointBlock_at_inner nodeFrom bname 0 pre⟩
  | succ d ih =>
    intro pre p hp
    simp only [waypointPairs, List.mem_cons] at hp
    rcases hp with hp | hp
    · subst hp
      exact ⟨waypointBlock_at_node nodeFrom bname (d + 1) pre,
        waypointBlock_at_inner nodeFrom bname (d + 1) pre⟩
    · rw [waypointBlock_succ_append]
      have hlen : (pre ++ [some (waypointNode bname (d + 1) pre.length),
          some (waypointInner nodeFrom bname (d + 1) pre.length)]).length = pre.length + 2 := by
        simp
      apply ih
      rw [hlen]
      exact hp

theorem waypoint_cast_block (accepts : Kind → Bool) (nodeFrom : Nat) (bname : String)
    (d : Nat) (pre : Components) (cur : GraphComponent)
    (hw : cur.waypoint = some (pre.length + 1, pre.length)) :
    WaypointEdge.waypoint accepts (pre ++ waypointBlock nodeFrom bname d pre.length) cur =
      if accepts (waypointInner nodeFrom bname d pre.length).kind
      then some (waypointInner nodeFrom bname d pre.length) else none := by
  simp [WaypointEdge.waypoint, hw, waypointBlock_at_inner, dynamicCast]

theorem walk_block (nodeFrom : Nat) (bname : String) (d : Nat) :
    ∀ (pre : Components) (cur : GraphComponent) (acc : List GraphComponent) (fuel : Nat),
      cur.waypoint = some (pre.length + 1, pre.length) → d < fuel →
      ∃ x ys,
        impl.Graph.createWaypointEdge.walk (pre ++ waypointBlock nodeFrom bname d pre.length)
          fuel cur acc = some (x, ys) ∧
        WaypointEdge.waypoint Kind.isEdge (pre ++ waypointBlock nodeFrom bname d pre.length) x
            :: ys.map some =
          (((waypointPairs nodeFrom bname d pre.length).map Prod.fst).reverse ++ acc).map some := by
  induction d with
  | zero =>
    intro pre cur acc fuel hw hf
    obtain ⟨f, rfl⟩ : ∃ f, fuel = f + 1 := ⟨fuel - 1, by omega⟩
    refine ⟨cur, acc, ?_, ?_⟩
    · simp [impl.Graph.createWaypointEdge.walk, waypoint_cast_block _ _ _ _ _ _ hw,
        waypointInner, waypointEdgeNew, Kind.isWaypointEdge]
    · simp [waypoint_cast_block _ _ _ _ _ _ hw, waypointInner, waypointEdgeNew, Kind.isEdge,
        waypointPairs]
  | succ d ih =>
    intro pre cur acc fuel hw hf
    obtain ⟨f, rfl⟩ : ∃ f, fuel = f + 1 := ⟨fuel - 1, by omega⟩
    have hstep : impl.Graph.createWaypointEdge.walk
        (pre ++ waypointBlock nodeFrom bname (d + 1) pre.length) (f + 1) cur acc =
        impl.Graph.createWaypointEdge.walk
          (pre ++ waypointBlock nodeFrom bname (d + 1) pre.length) f
          (waypointInner nodeFrom bname (d + 1) pre.length)
          (waypointInner nodeFrom bname (d + 1) pre.length :: acc) := by
      simp [impl.Graph.createWaypointEdge.walk, waypoint_cast_block _ _ _ _ _ _ hw,
        waypointInner, waypointEdgeNew, Kind.isWaypointEdge]
    rw [hstep, waypointBlock_succ_append]
    have hlen : (pre ++ [some (waypointNode bname (d + 1) pre.length),
        some (waypointInner nodeFrom bname (d + 1) pre.length)]).length = pre.length + 2 := by
      simp
    obtain ⟨x, ys, h1, h2⟩ := ih
      (pre ++ [some (waypointNode bname (d + 1) pre.length),
        some (waypointInner nodeFrom bname (d + 1) pre.length)])
      (waypointInner nodeFrom bname (d + 1) pre.length)
      (waypointInner nodeFrom bname (d + 1) pre.length :: acc) f
      (by rw [hlen]; rfl) (by omega)
    refine ⟨x, ys, h1, ?_⟩
    rw [h2, hlen]
    simp [waypointPairs]

theorem fill_pairs (components : Components) (l : List (GraphComponent × GraphComponent))
    (h : ∀ p ∈ l, components.at p.1.nodeTo = some p.2) :
    impl.Graph.createWaypointEdge.fill components (l.map (fun p => some p.1)) =
      some (l.map (fun p => GraphComp.of p.1), l.map (fun p => GraphComp.of p.2)) := by
  induction l with
  | nil => rfl
  | cons p rest ih =>
    have hp := h p (List.mem_cons_self _ _)
    have hrest := ih (fun q hq => h q (List.mem_cons_of_mem _ hq))
    simp [impl.Graph.createWaypointEdge.fill, hp, hrest, GraphComp.of]

theorem resolveNodes_ok {components : Components} {nodeFromId nodeToId : Int}
    {from_ to_ : GraphComponent}
    (h : impl.Graph.resolveNodes components nodeFromId nodeToId = .ok (from_, to_)) :
    GraphComponent.get components nodeFromId = .ok (some from_) ∧
    GraphComponent.get components nodeToId = .ok (some to_) ∧
    from_.kind = .node ∧ to_.kind = .node := by
  unfold impl.Graph.resolveNodes at h
  cases hf : GraphComponent.get components nodeFromId with
  | error msg => simp [hf] at h
  | ok pf =>
    cases ht : GraphComponent.get components nodeToId with
    | error msg => simp [hf, ht] at h
    | ok pt =>
      simp only [hf, ht] at h
      cases pf with
      | none => simp [dynamicCast] at h
      | some cf =>
        cases pt with
        | none =>
          by_cases hk : Kind.isNode cf.kind = true <;> simp [dynamicCast, hk] at h
        | some ct =>
          by_cases hk : Kind.isNode cf.kind = true
          · by_cases hk2 : Kind.isNode ct.kind = true
            · simp [dynamicCast, hk, hk2] at h
              obtain ⟨h1, h2⟩ := h
              subst h1
              subst h2
              refine ⟨rfl, rfl, ?_, ?_⟩
              · cases hc : cf.kind <;> simp [hc, Kind.isNode] at hk ⊢
              · cases hc : ct.kind <;> simp [hc, Kind.isNode] at hk2 ⊢
            · simp [dynamicCast, hk, hk2] at h
          · simp [dynamicCast, hk] at h

theorem rename_last (pre : Components) (c : GraphComponent) (name : String) :
    Components.rename (pre ++ [some c]) pre.length name =
      pre ++ [some { c with name := name }] := by
  have hat : Components.at (pre ++ [some c]) pre.length = some c := by
    have h := @at_append_right pre [some c] 0
    rw [Nat.add_zero] at h
    rw [h]
    rfl
  simp [Components.rename, hat]

theorem createWaypoint_last (nodeFrom : Nat) (bname : String) (d : Nat) (pre : Components)
    (c : GraphComponent) :
    WaypointEdge.createWaypoint nodeFrom bname d pre.length (pre ++ [some c]) =
      (pre ++ [some { c with waypoint := some (pre.length + 2, pre.length + 1) }])
        ++ waypointBlock nodeFrom bname d (pre.length + 1) := by
  have hat : Components.at (pre ++ [some c]) pre.length = some c := by
    have h := @at_append_right pre [some c] 0
    rw [Nat.add_zero] at h
    rw [h]
    rfl
  rw [createWaypoint_eq nodeFrom bname d pre.length (pre ++ [some c]) c (by simp) hat]
  simp

theorem createWaypointEdge_eq (s : Server) (nodeFromId nodeToId : Int)
    (edgeBaseName : String) (nb w : Int) (isInNodeFrom : Bool) (from_ to_ : GraphComponent)
    (hres : impl.Graph.resolveNodes s.components nodeFromId nodeToId = .ok (from_, to_)) :
    impl.Graph.createWaypointEdge s nodeFromId nodeToId edgeBaseName nb w isInNodeFrom =
      (.ok
        { nodes := (waypointPairs nodeFromId.toNat edgeBaseName (depthOf nb)
              (s.components.length + 1)).reverse.map (fun p => GraphComp.of p.2),
          edges := (waypointPairs nodeFromId.toNat edgeBaseName (depthOf nb)
              (s.components.length + 1)).reverse.map (fun p => GraphComp.of p.1)
            ++ [⟨edgeBaseName ++ "_e" ++ toString nb, (s.components.length : Int)⟩] },
       { s with
         components :=
          (withNeighbor s.components nodeFromId.toNat from_ s.components.length w
              ++ [some (outerWaypointEdge nodeFromId.toNat nodeToId.toNat isInNodeFrom
                    (edgeBaseName ++ "_e" ++ toString nb) s.components.length)])
            ++ waypointBlock nodeFromId.toNat edgeBaseName (depthOf nb)
                (s.components.length + 1) }) := by
  have hlen : (withNeighbor s.components nodeFromId.toNat from_ s.components.length w).length
      = s.components.length := by
    simp [withNeighbor]
  have hlink : Node.linkTo s.components nodeFromId.toNat from_ nodeToId.toNat w isInNodeFrom
      .waypointEdge =
      (s.components.length,
        withNeighbor s.components nodeFromId.toNat from_ s.components.length w
          ++ [some (Edge.create .waypointEdge s.components.length nodeFromId.toNat
                nodeToId.toNat isInNodeFrom)]) := rfl
  have hrename : Components.rename
      (withNeighbor s.components nodeFromId.toNat from_ s.components.length w
          ++ [some (Edge.create .waypointEdge s.components.length nodeFromId.toNat
                nodeToId.toNat isInNodeFrom)])
      s.components.length (edgeBaseName ++ "_e" ++ toString nb) =
      withNeighbor s.components nodeFromId.toNat from_ s.components.length w
        ++ [some (namedWaypointEdge nodeFromId.toNat nodeToId.toNat isInNodeFrom
              (edgeBaseName ++ "_e" ++ toString nb) s.components.length)] := by
    have h := rename_last
      (withNeighbor s.components nodeFromId.toNat from_ s.components.length w)
      (Edge.create .waypointEdge s.components.length nodeFromId.toNat
        nodeToId.toNat isInNodeFrom)
      (edgeBaseName ++ "_e" ++ toString nb)
    rw [hlen] at h
    exact h
  have hcreate : WaypointEdge.createWaypoint nodeFromId.toNat edgeBaseName (depthOf nb)
      s.components.length
      (withNeighbor s.components nodeFromId.toNat from_ s.components.length w
        ++ [some (namedWaypointEdge nodeFromId.toNat nodeToId.toNat isInNodeFrom
              (edgeBaseName ++ "_e" ++ toString nb) s.components.length)]) =
      (withNeighbor s.components nodeFromId.toNat from_ s.components.length w
          ++ [some (outerWaypointEdge nodeFromId.toNat nodeToId.toNat isInNodeFrom
                (edgeBaseName ++ "_e" ++ toString nb) s.components.length)])
        ++ waypointBlock nodeFromId.toNat edgeBaseName (depthOf nb)
            (s.components.length + 1) := by
    have h := createWaypoint_last nodeFromId.toNat edgeBaseName (depthOf nb)
      (withNeighbor s.components nodeFromId.toNat from_ s.components.length w)
      (namedWaypointEdge nodeFromId.toNat nodeToId.toNat isInNodeFrom
        (edgeBaseName ++ "_e" ++ toString nb) s.components.length)
    rw [hlen] at h
    exact h
  have hpre : (withNeighbor s.components nodeFromId.toNat from_ s.components.length w
      ++ [some (outerWaypointEdge nodeFromId.toNat nodeToId.toNat isInNodeFrom
            (edgeBaseName ++ "_e" ++ toString nb) s.components.length)]).length
      = s.components.length + 1 := by
    simp [hlen]
  have hbuiltAt : Components.at
      ((withNeighbor s.components nodeFromId.toNat from_ s.components.length w
          ++ [some (outerWaypointEdge nodeFromId.toNat nodeToId.toNat isInNodeFrom
                (edgeBaseName ++ "_e" ++ toString nb) s.components.length)])
        ++ waypointBlock nodeFromId.toNat edgeBaseName (depthOf nb)
            (s.components.length + 1)) s.components.length
      = some (outerWaypointEdge nodeFromId.toNat nodeToId.toNat isInNodeFrom
                (edgeBaseName ++ "_e" ++ toString nb) s.components.length) := by
    rw [at_append_left (by rw [hpre]; omega)]
    have h := @at_append_right
      (withNeighbor s.components nodeFromId.toNat from_ s.components.length w)
      [some (outerWaypointEdge nodeFromId.toNat nodeToId.toNat isInNodeFrom
                (edgeBaseName ++ "_e" ++ toString nb) s.components.length)] 0
    rw [Nat.add_zero, hlen] at h
    rw [h]
    rfl
  obtain ⟨x, ys, hwalk, hlist⟩ := walk_block nodeFromId.toNat edgeBaseName (depthOf nb)
    (withNeighbor s.components nodeFromId.toNat from_ s.components.length w
      ++ [some (outerWaypointEdge nodeFromId.toNat nodeToId.toNat isInNodeFrom
            (edgeBaseName ++ "_e" ++ toString nb) s.components.length)])
    (outerWaypointEdge nodeFromId.toNat nodeToId.toNat isInNodeFrom
      (edgeBaseName ++ "_e" ++ toString nb) s.components.length) []
    (((withNeighbor s.components nodeFromId.toNat from_ s.components.length w
          ++ [some (outerWaypointEdge nodeFromId.toNat nodeToId.toNat isInNodeFrom
                (edgeBaseName ++ "_e" ++ toString nb) s.components.length)])
        ++ waypointBlock nodeFromId.toNat edgeBaseName (depthOf nb)
            (s.components.length + 1)).length + 1)
    (by rw [hpre]; rfl)
    (by rw [List.length_append, waypointBlock_length]; omega)
  rw [hpre] at hwalk hlist
  have hfill := fill_pairs
    ((withNeighbor s.components nodeFromId.toNat from_ s.components.length w
          ++ [some (outerWaypointEdge nodeFromId.toNat nodeToId.toNat isInNodeFrom
                (edgeBaseName ++ "_e" ++ toString nb) s.components.length)])
        ++ waypointBlock nodeFromId.toNat edgeBaseName (depthOf nb)
            (s.components.length + 1))
    (waypointPairs nodeFromId.toNat edgeBaseName (depthOf nb)
      (s.components.length + 1)).reverse
    (by
      intro p hp
      have h := waypointPairs_at nodeFromId.toNat edgeBaseName (depthOf nb)
        (withNeighbor s.components nodeFromId.toNat from_ s.components.length w
          ++ [some (outerWaypointEdge nodeFromId.toNat nodeToId.toNat isInNodeFrom
                (edgeBaseName ++ "_e" ++ toString nb) s.components.length)]) p
      rw [hpre] at h
      exact (h (List.mem_reverse.mp hp)).1)
  have hlist2 : WaypointEdge.waypoint Kind.isEdge
      ((withNeighbor s.components nodeFromId.toNat from_ s.components.length w
          ++ [some (outerWaypointEdge nodeFromId.toNat nodeToId.toNat isInNodeFrom
                (edgeBaseName ++ "_e" ++ toString nb) s.components.length)])
        ++ waypointBlock nodeFromId.toNat edgeBaseName (depthOf nb)
            (s.components.length + 1)) x :: ys.map some
      = (waypointPairs nodeFromId.toNat edgeBaseName (depthOf nb)
          (s.components.length + 1)).reverse.map (fun p => some p.1) := by
    rw [hlist]
    simp [List.map_reverse]
  have hd : ((nb - 1) % 2 ^ 32).toNat = depthOf nb := rfl
  unfold impl.Graph.createWaypointEdge impl.Graph.createWaypointEdge.elements
  simp only [hres, hlink, hrename, hd, hcreate, hbuiltAt, hwalk, hlist2, hfill]
  rfl

theorem waypointPairs_length (nodeFrom : Nat) (bname : String) (d L : Nat) :
    (waypointPairs nodeFrom bname d L).length = d + 1 := by
  induction d generalizing L with
  | zero => rfl
  | succ d ih => simp [waypointPairs, ih]

theorem waypointInner_name (nodeFrom : Nat) (bname : String) (d L : Nat) :
    (waypointInner nodeFrom bname d L).name = bname ++ "_e" ++ toString d ∧
    (waypointInner nodeFrom bname d L).id = L + 1 ∧
    (waypointInner nodeFrom bname d L).nodeTo = L := by
  cases d <;> simp [waypointInner, waypointEdgeNew]

theorem waypointPairs_edges (nodeFrom : Nat) (bname : String) (d : Nat) :
    ∀ L : Nat,
      (waypointPairs nodeFrom bname d L).reverse.map (fun p => GraphComp.of p.1) =
        (List.range (d + 1)).map
          (fun r => (⟨bname ++ "_e" ++ toString r, ((L + 2 * (d - r) + 1 : Nat) : Int)⟩ : GraphComp)) := by
  induction d with
  | zero =>
    intro L
    simp [waypointPairs, GraphComp.of, waypointInner, waypointEdgeNew, List.range_succ]
  | succ d ih =>
    intro L
    rw [List.range_succ, List.map_append]
    simp only [waypointPairs, List.reverse_cons, List.map_append, ih (L + 2)]
    congr 1
    · apply List.map_congr_left
      intro r hr
      have hr2 : r < d + 1 := List.mem_range.mp hr
      have h : L + 2 + 2 * (d - r) + 1 = L + 2 * (d + 1 - r) + 1 := by omega
      rw [h]
    · simp [GraphComp.of, waypointInner_name]

theorem waypointPairs_nodes (nodeFrom : Nat) (bname : String) (d : Nat) :
    ∀ L : Nat,
      (waypointPairs nodeFrom bname d L).reverse.map (fun p => GraphComp.of p.2) =
        (List.range (d + 1)).map
          (fun r => (⟨bname ++ "_n" ++ toString r, ((L + 2 * (d - r) : Nat) : Int)⟩ : GraphComp)) := by
  induction d with
  | zero =>
    intro L
    simp [waypointPairs, GraphComp.of, waypointNode, List.range_succ]
  | succ d ih =>
    intro L
    rw [List.range_succ, List.map_append]
    simp only [waypointPairs, List.reverse_cons, List.map_append, ih (L + 2)]
    congr 1
    · apply List.map_congr_left
      intro r hr
      have hr2 : r < d + 1 := List.mem_range.mp hr
      have h : L + 2 + 2 * (d - r) = L + 2 * (d + 1 - r) := by omega
      rw [h]
    · simp [GraphComp.of, waypointNode]

theorem waypointBlock_at_depth (nodeFrom : Nat) (bname : String) (d : Nat) :
    ∀ (pre : Components) (j : Nat), j ≤ d →
      Components.at (pre ++ waypointBlock nodeFrom bname d pre.length) (pre.length + 2 * j + 1)
        = some (waypointInner nodeFrom bname (d - j) (pre.length + 2 * j)) ∧
      Components.at (pre ++ waypointBlock nodeFrom bname d pre.length) (pre.length + 2 * j)
        = some (waypointNode bname (d - j) (pre.length + 2 * j)) := by
  induction d with
  | zero =>
    intro pre j hj
    have hj0 : j = 0 := by omega
    subst hj0
    exact ⟨waypointBlock_at_inner nodeFrom bname 0 pre, waypointBlock_at_node nodeFrom bname 0 pre⟩
  | succ d ih =>
    intro pre j hj
    cases j with
    | zero =>
      exact ⟨waypointBlock_at_inner nodeFrom bname (d + 1) pre,
        waypointBlock_at_node nodeFrom bname (d + 1) pre⟩
    | succ j =>
      rw [waypointBlock_succ_append]
      have hlen : (pre ++ [some (waypointNode bname (d + 1) pre.length),
          some (waypointInner nodeFrom bname (d + 1) pre.length)]).length = pre.length + 2 := by
        simp
      have h := ih (pre ++ [some (waypointNode bname (d + 1) pre.length),
          some (waypointInner nodeFrom bname (d + 1) pre.length)]) j (by omega)
      rw [hlen] at h ⊢
      have e1 : pre.length + 2 * (j + 1) + 1 = pre.length + 2 + 2 * j + 1 := by omega
      have e2 : pre.length + 2 * (j + 1) = pre.length + 2 + 2 * j := by omega
      have e3 : d + 1 - (j + 1) = d - j := by omega
      rw [e1, e2, e3]
      exact h

theorem depthOf_of_pos {nb : Int} (h1 : 1 ≤ nb) (h2 : nb < 2 ^ 31) :
    depthOf nb = nb.toNat - 1 ∧ 1 ≤ nb.toNat := by
  unfold depthOf
  have h : (nb - 1) % 2 ^ 32 = nb - 1 := Int.emod_eq_of_lt (by omega) (by omega)
  rw [h]
  omega

/-- C4, as stated, fails: on `demoServer`, `createWaypointEdge` from node 2
to node 3 with `nb = 1` exposes two edges and one node (the inner edge
"approach_e0", its target "approach_n0", then the waypoint edge itself),
where the claim gives one edge and no node. -/
theorem one_segment_exposes_two_edges :
    (impl.Graph.createWaypointEdge demoServer 2 3 "approach" 1 1 true).1 =
      .ok { nodes := [⟨"approach_n0", 6⟩],
            edges := [⟨"approach_e0", 7⟩, ⟨"approach_e1", 5⟩] } := by
  rfl

theorem createWaypointEdge_at_outer (s : Server) (nodeFrom nodeTo : Nat) (from_ : GraphComponent)
    (w : Int) (isInNodeFrom : Bool) (name bname : String) (d : Nat) :
    Components.at
      ((withNeighbor s.components nodeFrom from_ s.components.length w
          ++ [some (outerWaypointEdge nodeFrom nodeTo isInNodeFrom name s.components.length)])
        ++ waypointBlock nodeFrom bname d (s.components.length + 1)) s.components.length
      = some (outerWaypointEdge nodeFrom nodeTo isInNodeFrom name s.components.length) := by
  have hlen : (withNeighbor s.components nodeFrom from_ s.components.length w).length
      = s.components.length := by
    simp [withNeighbor]
  rw [at_append_left (by simp [hlen])]
  have h := @at_append_right (withNeighbor s.components nodeFrom from_ s.components.length w)
    [some (outerWaypointEdge nodeFrom nodeTo isInNodeFrom name s.components.length)] 0
  rw [Nat.add_zero, hlen] at h
  rw [h]
  rfl

theorem createWaypointEdge_at_depth (s : Server) (nodeFrom nodeTo : Nat) (from_ : GraphComponent)
    (w : Int) (isInNodeFrom : Bool) (name bname : String) (d j : Nat) (hj : j ≤ d) :
    Components.at
      ((withNeighbor s.components nodeFrom from_ s.components.length w
          ++ [some (outerWaypointEdge nodeFrom nodeTo isInNodeFrom name s.components.length)])
        ++ waypointBlock nodeFrom bname d (s.components.length + 1))
      (s.components.length + 1 + 2 * j + 1)
      = some (waypointInner nodeFrom bname (d - j) (s.components.length + 1 + 2 * j)) ∧
    Components.at
      ((withNeighbor s.components nodeFrom from_ s.components.length w
          ++ [some (outerWaypointEdge nodeFrom nodeTo isInNodeFrom name s.components.length)])
        ++ waypointBlock nodeFrom bname d (s.components.length + 1))
      (s.components.length + 1 + 2 * j)
      = some (waypointNode bname (d - j) (s.components.length + 1 + 2 * j)) := by
  have hlen : (withNeighbor s.components nodeFrom from_ s.components.length w
      ++ [some (outerWaypointEdge nodeFrom nodeTo isInNodeFrom name s.components.length)]).length
      = s.components.length + 1 := by
    simp [withNeighbor]
  have h := waypointBlock_at_depth nodeFrom bname d
    (withNeighbor s.components nodeFrom from_ s.components.length w
      ++ [some (outerWaypointEdge nodeFrom nodeTo isInNodeFrom name s.components.length)]) j hj
  rw [hlen] at h
  exact h

/-- C4 (amended): for every pair of Node ids and every `nb` with
`1 ≤ nb < 2^31`, `createWaypointEdge` succeeds and the chain it exposes
contains exactly `nb + 1` edges and exactly `nb` intermediate nodes (`nb`
counts the waypoints, not the edges), listed in source-to-target order: the
node at rank `r` is the target of the edge at rank `r`, and the edge at rank
`r + 1` has the edge at rank `r` and that node as its inner waypoint. The
last edge of the chain has the name `<base>_e<nb>` and the id of the waypoint
edge itself, the edge linked from the source node to the target node. -/
theorem waypoint_chain_counts_waypoints (s : Server) (nodeFromId nodeToId : Int)
    (edgeBaseName : String) (nb w : Int) (isInNodeFrom : Bool) (from_ to_ : GraphComponent)
    (hres : impl.Graph.resolveNodes s.components nodeFromId nodeToId = .ok (from_, to_))
    (h1 : 1 ≤ nb) (h2 : nb < 2 ^ 31) :
    ∃ out,
      (impl.Graph.createWaypointEdge s nodeFromId nodeToId edgeBaseName nb w isInNodeFrom).1
        = .ok out ∧
      out.edges.length = nb.toNat + 1 ∧
      out.nodes.length = nb.toNat ∧
      out.edges.getLast? =
        some ⟨edgeBaseName ++ "_e" ++ toString nb, (s.components.length : Int)⟩ ∧
      Components.at
        (impl.Graph.createWaypointEdge s nodeFromId nodeToId edgeBaseName nb w
          isInNodeFrom).2.components s.components.length =
        some (outerWaypointEdge nodeFromId.toNat nodeToId.toNat isInNodeFrom
          (edgeBaseName ++ "_e" ++ toString nb) s.components.length) ∧
      ∀ r, r < nb.toNat →
        ∃ (e nd nxt : GraphComp) (ce cn : GraphComponent),
          out.edges[r]? = some e ∧ out.nodes[r]? = some nd ∧ out.edges[r + 1]? = some nxt ∧
          Components.at
            (impl.Graph.createWaypointEdge s nodeFromId nodeToId edgeBaseName nb w
              isInNodeFrom).2.components e.id.toNat = some ce ∧
          (ce.nodeTo : Int) = nd.id ∧
          Components.at
            (impl.Graph.createWaypointEdge s nodeFromId nodeToId edgeBaseName nb w
              isInNodeFrom).2.components nxt.id.toNat = some cn ∧
          cn.waypoint = some (e.id.toNat, nd.id.toNat) := by
  obtain ⟨hd, hn⟩ := depthOf_of_pos h1 h2
  rw [createWaypointEdge_eq s nodeFromId nodeToId edgeBaseName nb w isInNodeFrom from_ to_ hres,
    waypointPairs_edges, waypointPairs_nodes, hd]
  have hd1 : nb.toNat - 1 + 1 = nb.toNat := by omega
  refine ⟨_, rfl, ?_, ?_, ?_, ?_, ?_⟩
  · simp [hd1]
  · simp [hd1]
  · simp
  · exact createWaypointEdge_at_outer s _ _ _ _ _ _ _ _
  · intro r hr
    have hjr : nb.toNat - 1 - r ≤ nb.toNat - 1 := by omega
    obtain ⟨hce, _⟩ := createWaypointEdge_at_depth s nodeFromId.toNat nodeToId.toNat from_ w
      isInNodeFrom (edgeBaseName ++ "_e" ++ toString nb) edgeBaseName (nb.toNat - 1)
      (nb.toNat - 1 - r) hjr
    have he : ((List.range (nb.toNat - 1 + 1)).map
        (fun r => (⟨edgeBaseName ++ "_e" ++ toString r,
          ((s.components.length + 1 + 2 * (nb.toNat - 1 - r) + 1 : Nat) : Int)⟩ : GraphComp))
        ++ [⟨edgeBaseName ++ "_e" ++ toString nb, (s.components.length : Int)⟩])[r]?
        = some ⟨edgeBaseName ++ "_e" ++ toString r,
          ((s.components.length + 1 + 2 * (nb.toNat - 1 - r) + 1 : Nat) : Int)⟩ := by
      rw [List.getElem?_append_left (by simp; omega)]
      simp [List.getElem?_range (show r < nb.toNat - 1 + 1 by omega)]
    have hnd : ((List.range (nb.toNat - 1 + 1)).map
        (fun r => (⟨edgeBaseName ++ "_n" ++ toString r,
          ((s.components.length + 1 + 2 * (nb.toNat - 1 - r) : Nat) : Int)⟩ : GraphComp)))[r]?
        = some ⟨edgeBaseName ++ "_n" ++ toString r,
          ((s.components.length + 1 + 2 * (nb.toNat - 1 - r) : Nat) : Int)⟩ := by
      simp [List.getElem?_range (show r < nb.toNat - 1 + 1 by omega)]
    by_cases hlast : r + 1 < nb.toNat
    · have hjr2 : nb.toNat - 1 - (r + 1) ≤ nb.toNat - 1 := by omega
      obtain ⟨hcn, _⟩ := createWaypointEdge_at_depth s nodeFromId.toNat nodeToId.toNat from_ w
        isInNodeFrom (edgeBaseName ++ "_e" ++ toString nb) edgeBaseName (nb.toNat - 1)
        (nb.toNat - 1 - (r + 1)) hjr2
      have hnx : ((List.range (nb.toNat - 1 + 1)).map
          (fun r => (⟨edgeBaseName ++ "_e" ++ toString r,
            ((s.components.length + 1 + 2 * (nb.toNat - 1 - r) + 1 : Nat) : Int)⟩ : GraphComp))
          ++ [⟨edgeBaseName ++ "_e" ++ toString nb, (s.components.length : Int)⟩])[r + 1]?
          = some ⟨edgeBaseName ++ "_e" ++ toString (r + 1),
            ((s.components.length + 1 + 2 * (nb.toNat - 1 - (r + 1)) + 1 : Nat) : Int)⟩ := by
        rw [List.getElem?_append_left (by simp; omega)]
        simp [List.getElem?_range (show r + 1 < nb.toNat - 1 + 1 by omega)]
      have hdepth : nb.toNat - 1 - (nb.toNat - 1 - (r + 1)) = r + 1 := by omega
      rw [hdepth] at hcn
      refine ⟨_, _, _, _, _, he, hnd, hnx, hce, ?_, hcn, ?_⟩
      · simp [waypointInner_name]
      · simp only [waypointInner, waypointEdgeNew, Int.toNat_ofNat]
        congr 2 <;> omega
    · have hr1 : r + 1 = nb.toNat := by omega
      have hnx : ((List.range (nb.toNat - 1 + 1)).map
          (fun r => (⟨edgeBaseName ++ "_e" ++ toString r,
            ((s.components.length + 1 + 2 * (nb.toNat - 1 - r) + 1 : Nat) : Int)⟩ : GraphComp))
          ++ [⟨edgeBaseName ++ "_e" ++ toString nb, (s.components.length : Int)⟩])[r + 1]?
          = some ⟨edgeBaseName ++ "_e" ++ toString nb, (s.components.length : Int)⟩ := by
        rw [List.getElem?_append_right (by simp; omega)]
        simp [hd1, hr1]
      refine ⟨_, _, _, _, _, he, hnd, hnx, hce, ?_,
        createWaypointEdge_at_outer s _ _ _ _ _ _ _ _, ?_⟩
      · simp [waypointInner_name]
      · simp only [outerWaypointEdge, Int.toNat_ofNat]
        congr 2 <;> omega

/-- Witness for C4 (amended): three waypoints between nodes 2 and 3 of
`demoServer` expose four edges and three nodes. -/
theorem waypoint_chain_counts_waypoints_witness :
    ∃ out,
      (impl.Graph.createWaypointEdge demoServer 2 3 "approach" 3 1 true).1 = .ok out ∧
      out.edges.length = (3 : Int).toNat + 1 ∧ out.nodes.length = (3 : Int).toNat :=
  match waypoint_chain_counts_waypoints demoServer 2 3 "approach" 3 1 true
      { id := 2, kind := .node, name := "N1", neighbors := [(4, 1)] }
      { id := 3, kind := .node, name := "N2" } rfl (by decide) (by decide) with
  | ⟨out, h1, h2, h3, _⟩ => ⟨out, h1, h2, h3⟩

theorem at_some_lt {components : Components} {i : Nat} {c : GraphComponent}
    (h : components.at i = some c) : i < components.length := by
  by_contra hlt
  simp [Components.at, List.getElem?_eq_none (Nat.le_of_not_lt hlt)] at h

theorem rename_at_self {components : Components} {i : Nat} {c : GraphComponent}
    (name : String) (h : components.at i = some c) :
    Components.at (Components.rename components i name) i = some { c with name := name } := by
  simp [Components.rename, h, at_set_self _ (at_some_lt h)]

theorem rename_at_other (components : Components) {i j : Nat} (name : String) (h : i ≠ j) :
    Components.at (Components.rename components i name) j = components.at j := by
  unfold Components.rename
  cases components.at i with
  | none => rfl
  | some c => exact at_set_other _ h

theorem rename_length (components : Components) (i : Nat) (name : String) :
    (Components.rename components i name).length = components.length := by
  unfold Components.rename
  cases components.at i with
  | none => rfl
  | some c => simp

theorem rename_keeps_id (components : Components) (i j : Nat) (name : String) :
    (Components.at (Components.rename components i name) j).map (fun c => c.id) =
      (components.at j).map (fun c => c.id) := by
  by_cases h : i = j
  · subst h
    cases hc : components.at i with
    | none => simp [Components.rename, hc]
    | some c => simp [rename_at_self name hc]
  · rw [rename_at_other _ _ h]

theorem chainComponents_length (s : Server) (nodeFrom nodeTo : Nat) (from_ : GraphComponent)
    (w : Int) (isInNodeFrom : Bool) (name bname : String) (d : Nat) :
    (chainComponents s nodeFrom nodeTo from_ w isInNodeFrom name bname d).length =
      s.components.length + 1 + 2 * (d + 1) := by
  simp [chainComponents, withNeighbor, waypointBlock_length]
  omega

theorem getWaypoint_chain (s s1 : Server) (nodeFrom nodeTo : Nat) (from_ : GraphComponent)
    (w : Int) (isInNodeFrom : Bool) (name bname : String) (d : Nat)
    (h1 : s1.components =
      chainComponents s nodeFrom nodeTo from_ w isInNodeFrom name bname d) :
    impl.Graph.getWaypoint s1 (s.components.length : Int) =
      (.ok (((s.components.length + 2 : Nat) : Int), ((s.components.length + 1 : Nat) : Int)),
       { s1 with
         components := Components.rename
          (Components.rename s1.components (s.components.length + 2) (name ++ "_waypoint"))
          (s.components.length + 1) (name ++ "_waypoint_node") }) := by
  have houter : Components.at s1.components s.components.length
      = some (outerWaypointEdge nodeFrom nodeTo isInNodeFrom name s.components.length) := by
    rw [h1]
    exact createWaypointEdge_at_outer s _ _ _ _ _ _ _ _
  obtain ⟨hinner, hnode⟩ : Components.at s1.components (s.components.length + 2)
        = some (waypointInner nodeFrom bname d (s.components.length + 1)) ∧
      Components.at s1.components (s.components.length + 1)
        = some (waypointNode bname d (s.components.length + 1)) := by
    rw [h1]
    exact createWaypointEdge_at_depth s nodeFrom nodeTo from_ w isInNodeFrom name bname d 0
      (Nat.zero_le _)
  have hget : GraphComponent.get s1.components (s.components.length : Int)
      = .ok (some (outerWaypointEdge nodeFrom nodeTo isInNodeFrom name s.components.length)) := by
    unfold GraphComponent.get
    have hlen := chainComponents_length s nodeFrom nodeTo from_ w isInNodeFrom name bname d
    rw [← h1] at hlen
    have hnot : ¬ ((s.components.length : Int) < 0 ∨
        (s1.components.length : Int) ≤ (s.components.length : Int)) := by
      omega
    rw [if_neg hnot]
    rw [Int.toNat_ofNat]
    exact congrArg Except.ok houter
  have hkind : (waypointInner nodeFrom bname d (s.components.length + 1)).kind.isEdge = true := by
    cases d <;> rfl
  have hto : (waypointInner nodeFrom bname d (s.components.length + 1)).nodeTo
      = s.components.length + 1 := (waypointInner_name nodeFrom bname d _).2.2
  have hid : (waypointInner nodeFrom bname d (s.components.length + 1)).id
      = s.components.length + 2 := (waypointInner_name nodeFrom bname d _).2.1
  have hc1outer : Components.at
      (Components.rename s1.components (s.components.length + 2) (name ++ "_waypoint"))
      s.components.length
      = some (outerWaypointEdge nodeFrom nodeTo isInNodeFrom name s.components.length) := by
    rw [rename_at_other _ _ (by omega)]
    exact houter
  have hc1node : Components.at
      (Components.rename s1.components (s.components.length + 2) (name ++ "_waypoint"))
      (s.components.length + 1)
      = some (waypointNode bname d (s.components.length + 1)) := by
    rw [rename_at_other _ _ (by omega)]
    exact hnode
  unfold impl.Graph.getWaypoint
  simp only [hget, dynamicCast, outerWaypointEdge, Kind.isWaypointEdge, if_true,
    WaypointEdge.waypoint, namedWaypointEdge, Edge.create]
  simp only [hinner, hkind, if_true, hto, hid, Int.toNat_ofNat]
  simp only [outerWaypointEdge, namedWaypointEdge, Edge.create] at hc1outer
  simp only [hc1outer, hc1node]
  rfl

theorem createWaypointEdge_state (s : Server) (nodeFromId nodeToId : Int)
    (edgeBaseName : String) (nb w : Int) (isInNodeFrom : Bool) (from_ to_ : GraphComponent)
    (hres : impl.Graph.resolveNodes s.components nodeFromId nodeToId = .ok (from_, to_)) :
    (impl.Graph.createWaypointEdge s nodeFromId nodeToId edgeBaseName nb w
        isInNodeFrom).2.components =
      chainComponents s nodeFromId.toNat nodeToId.toNat from_ w isInNodeFrom
        (edgeBaseName ++ "_e" ++ toString nb) edgeBaseName (depthOf nb) := by
  rw [createWaypointEdge_eq s nodeFromId nodeToId edgeBaseName nb w isInNodeFrom from_ to_ hres]
  rfl

/-- C5 at the failing input: on `demoServer`, `createWaypointEdge` from node 2
to node 3 with `nb = 0` raises no error. The count is never tested: `nb - 1`
becomes the unsigned depth 4294967295, the call asks for 4294967296 waypoints
and (memory permitting) exposes 4294967297 edges; the waypoint edge
"approach_e0" is registered under id 5 and inserted in the neighbours of
node 2 before the count is used at all. -/
theorem zero_segments_is_not_rejected :
    depthOf 0 = 4294967295 ∧
    (∃ out,
      (impl.Graph.createWaypointEdge demoServer 2 3 "approach" 0 1 true).1 = .ok out ∧
      out.edges.length = 4294967297 ∧ out.nodes.length = 4294967296) ∧
    Components.at
      (impl.Graph.createWaypointEdge demoServer 2 3 "approach" 0 1 true).2.components 5 =
      some (outerWaypointEdge 2 3 true "approach_e0" 5) ∧
    (Components.at
      (impl.Graph.createWaypointEdge demoServer 2 3 "approach" 0 1 true).2.components 2).map
        (fun c => c.neighbors) = some [(4, 1), (5, 1)] ∧
    demoServer.components.at 5 = none := by
  have hd : depthOf 0 = 4294967295 := by decide
  have hres : impl.Graph.resolveNodes demoServer.components 2 3 =
      .ok ({ id := 2, kind := .node, name := "N1", neighbors := [(4, 1)] },
           { id := 3, kind := .node, name := "N2" }) := rfl
  have hstate := createWaypointEdge_state demoServer 2 3 "approach" 0 1 true _ _ hres
  have heq := createWaypointEdge_eq demoServer 2 3 "approach" 0 1 true _ _ hres
  refine ⟨hd, ?_, ?_, ?_, rfl⟩
  · rw [heq]
    refine ⟨_, rfl, ?_, ?_⟩
    · rw [List.length_append, List.length_map, List.length_reverse, waypointPairs_length, hd,
        List.length_singleton]
    · rw [List.length_map, List.length_reverse, waypointPairs_length, hd]
  · rw [hstate]
    exact createWaypointEdge_at_outer demoServer 2 3 _ 1 true "approach_e0" "approach"
      (depthOf 0)
  · rw [hstate, chainComponents, at_append_left (by simp [withNeighbor, demoServer]),
      at_append_left (by simp [withNeighbor, demoServer])]
    rfl

theorem createWaypointEdge_out (s : Server) (nodeFromId nodeToId : Int)
    (edgeBaseName : String) (nb w : Int) (isInNodeFrom : Bool) (from_ to_ : GraphComponent)
    (hres : impl.Graph.resolveNodes s.components nodeFromId nodeToId = .ok (from_, to_)) :
    ∃ out,
      (impl.Graph.createWaypointEdge s nodeFromId nodeToId edgeBaseName nb w isInNodeFrom).1
        = .ok out ∧
      out.edges = (List.range (depthOf nb + 1)).map
          (fun r => (⟨edgeBaseName ++ "_e" ++ toString r,
            ((s.components.length + 1 + 2 * (depthOf nb - r) + 1 : Nat) : Int)⟩ : GraphComp))
        ++ [⟨edgeBaseName ++ "_e" ++ toString nb, (s.components.length : Int)⟩] ∧
      out.nodes = (List.range (depthOf nb + 1)).map
          (fun r => (⟨edgeBaseName ++ "_n" ++ toString r,
            ((s.components.length + 1 + 2 * (depthOf nb - r) : Nat) : Int)⟩ : GraphComp)) := by
  rw [createWaypointEdge_eq s nodeFromId nodeToId edgeBaseName nb w isInNodeFrom from_ to_ hres,
    waypointPairs_edges, waypointPairs_nodes]
  exact ⟨_, rfl, rfl, rfl⟩

/-- C6, as stated, fails: on `demoServer`, `createWaypointEdge` with `nb = 3`
exposes the chain of edges 11, 9, 7, 5 through the nodes 10, 8, 6; its first
segment is edge 11 with target node 10, but `getWaypoint` on the waypoint
edge 5 returns edge 7 and node 6, the last inner segment and its target. -/
theorem getWaypoint_is_not_first_segment :
    (impl.Graph.createWaypointEdge demoServer 2 3 "approach" 3 1 true).1 =
      .ok { nodes := [⟨"approach_n0", 10⟩, ⟨"approach_n1", 8⟩, ⟨"approach_n2", 6⟩],
            edges := [⟨"approach_e0", 11⟩, ⟨"approach_e1", 9⟩, ⟨"approach_e2", 7⟩,
                      ⟨"approach_e3", 5⟩] } ∧
    (impl.Graph.getWaypoint
      (impl.Graph.createWaypointEdge demoServer 2 3 "approach" 3 1 true).2 5).1 = .ok (7, 6) := by
  constructor <;> rfl

/-- C6 (amended): for every WaypointEdge built by `createWaypointEdge` with
`1 ≤ nb < 2^31`, `getWaypoint` on its id returns the id of the segment that
comes just before the waypoint edge itself in the exposed chain (the edge at
rank `nb - 1`, which is the first segment only when `nb = 1`) and sets the
output node id to the id of that segment's target node (the last exposed
node). -/
theorem getWaypoint_returns_last_inner_segment (s : Server) (nodeFromId nodeToId : Int)
    (edgeBaseName : String) (nb w : Int) (isInNodeFrom : Bool) (from_ to_ : GraphComponent)
    (hres : impl.Graph.resolveNodes s.components nodeFromId nodeToId = .ok (from_, to_))
    (h1 : 1 ≤ nb) (h2 : nb < 2 ^ 31) :
    ∃ (out : GraphElements) (self e nd : GraphComp) (ce : GraphComponent),
      (impl.Graph.createWaypointEdge s nodeFromId nodeToId edgeBaseName nb w isInNodeFrom).1
        = .ok out ∧
      out.edges.getLast? = some self ∧
      out.edges[nb.toNat - 1]? = some e ∧
      out.nodes[nb.toNat - 1]? = some nd ∧
      out.nodes.getLast? = some nd ∧
      (impl.Graph.getWaypoint
        (impl.Graph.createWaypointEdge s nodeFromId nodeToId edgeBaseName nb w isInNodeFrom).2
        self.id).1 = .ok (e.id, nd.id) ∧
      Components.at
        (impl.Graph.createWaypointEdge s nodeFromId nodeToId edgeBaseName nb w
          isInNodeFrom).2.components e.id.toNat = some ce ∧
      (ce.nodeTo : Int) = nd.id := by
  obtain ⟨hd, hn⟩ := depthOf_of_pos h1 h2
  have hstate := createWaypointEdge_state s nodeFromId nodeToId edgeBaseName nb w isInNodeFrom
    from_ to_ hres
  have hgw := getWaypoint_chain s
    (impl.Graph.createWaypointEdge s nodeFromId nodeToId edgeBaseName nb w isInNodeFrom).2
    nodeFromId.toNat nodeToId.toNat from_ w isInNodeFrom
    (edgeBaseName ++ "_e" ++ toString nb) edgeBaseName (depthOf nb) hstate
  obtain ⟨hce, _⟩ := createWaypointEdge_at_depth s nodeFromId.toNat nodeToId.toNat from_ w
    isInNodeFrom (edgeBaseName ++ "_e" ++ toString nb) edgeBaseName (depthOf nb) 0
    (Nat.zero_le _)
  have hd1 : nb.toNat - 1 + 1 = nb.toNat := by omega
  obtain ⟨out, hout, hedges, hnodes⟩ := createWaypointEdge_out s nodeFromId nodeToId
    edgeBaseName nb w isInNodeFrom from_ to_ hres
  rw [hd] at hedges hnodes hce
  refine ⟨out, ⟨edgeBaseName ++ "_e" ++ toString nb, (s.components.length : Int)⟩,
    ⟨edgeBaseName ++ "_e" ++ toString (nb.toNat - 1), ((s.components.length + 2 : Nat) : Int)⟩,
    ⟨edgeBaseName ++ "_n" ++ toString (nb.toNat - 1), ((s.components.length + 1 : Nat) : Int)⟩,
    waypointInner nodeFromId.toNat edgeBaseName (nb.toNat - 1) (s.components.length + 1),
    hout, ?_, ?_, ?_, ?_, ?_, ?_, ?_⟩
  · rw [hedges]
    simp
  · rw [hedges, List.getElem?_append_left (by simp)]
    simp [List.getElem?_range (show nb.toNat - 1 < nb.toNat - 1 + 1 by omega)]
    omega
  · rw [hnodes]
    simp [List.getElem?_range (show nb.toNat - 1 < nb.toNat - 1 + 1 by omega)]
  · rw [hnodes, List.range_succ]
    simp
  · rw [hgw]
  · rw [hstate, hd]
    exact hce
  · simp [waypointInner_name]

/-- Witness for C6 (amended): the chain with three waypoints on `demoServer`. -/
theorem getWaypoint_returns_last_inner_segment_witness :
    ∃ (out : GraphElements) (self e nd : GraphComp) (ce : GraphComponent),
      (impl.Graph.createWaypointEdge demoServer 2 3 "approach" 3 1 true).1 = .ok out ∧
      out.edges.getLast? = some self ∧
      out.edges[(3 : Int).toNat - 1]? = some e ∧
      out.nodes[(3 : Int).toNat - 1]? = some nd ∧
      out.nodes.getLast? = some nd ∧
      (impl.Graph.getWaypoint
        (impl.Graph.createWaypointEdge demoServer 2 3 "approach" 3 1 true).2 self.id).1
        = .ok (e.id, nd.id) ∧
      Components.at
        (impl.Graph.createWaypointEdge demoServer 2 3 "approach" 3 1 true).2.components
        e.id.toNat = some ce ∧
      (ce.nodeTo : Int) = nd.id :=
  getWaypoint_returns_last_inner_segment demoServer 2 3 "approach" 3 1 true
    { id := 2, kind := .node, name := "N1", neighbors := [(4, 1)] }
    { id := 3, kind := .node, name := "N2" } rfl (by decide) (by decide)

theorem toString_of_pos {nb : Int} (h1 : 1 ≤ nb) : toString nb = Nat.repr nb.toNat := by
  obtain ⟨n, rfl⟩ := Int.eq_ofNat_of_zero_le (show 0 ≤ nb by omega)
  rfl

/-- C7: for every base name `b` and every `nb ≥ 1`, `createWaypointEdge`
names the waypoint edge itself `b_e<nb>`, with `nb` in decimal, and
a following `getWaypoint` on that edge's id returns a segment and its target
node, names the segment `b_e<nb>_waypoint` and the node
`b_e<nb>_waypoint_node`, and changes no id: the registry keeps its length and
every component keeps its id. -/
theorem getWaypoint_renames_segment_and_node (s : Server) (nodeFromId nodeToId : Int)
    (edgeBaseName : String) (nb w : Int) (isInNodeFrom : Bool) (from_ to_ : GraphComponent)
    (hres : impl.Graph.resolveNodes s.components nodeFromId nodeToId = .ok (from_, to_))
    (h1 : 1 ≤ nb) :
    (Components.at
      (impl.Graph.createWaypointEdge s nodeFromId nodeToId edgeBaseName nb w
        isInNodeFrom).2.components s.components.length).map (fun c => (c.name, c.kind))
      = some (edgeBaseName ++ "_e" ++ Nat.repr nb.toNat, Kind.waypointEdge) ∧
    ∃ eid nid : Nat,
      (impl.Graph.getWaypoint
        (impl.Graph.createWaypointEdge s nodeFromId nodeToId edgeBaseName nb w isInNodeFrom).2
        (s.components.length : Int)).1 = .ok ((eid : Int), (nid : Int)) ∧
      (Components.at
        (impl.Graph.createWaypointEdge s nodeFromId nodeToId edgeBaseName nb w
          isInNodeFrom).2.components eid).map (fun c => c.nodeTo) = some nid ∧
      (Components.at
        (impl.Graph.getWaypoint
          (impl.Graph.createWaypointEdge s nodeFromId nodeToId edgeBaseName nb w isInNodeFrom).2
          (s.components.length : Int)).2.components eid).map (fun c => c.name)
        = some (edgeBaseName ++ "_e" ++ Nat.repr nb.toNat ++ "_waypoint") ∧
      (Components.at
        (impl.Graph.getWaypoint
          (impl.Graph.createWaypointEdge s nodeFromId nodeToId edgeBaseName nb w isInNodeFrom).2
          (s.components.length : Int)).2.components nid).map (fun c => c.name)
        = some (edgeBaseName ++ "_e" ++ Nat.repr nb.toNat ++ "_waypoint_node") ∧
      (impl.Graph.getWaypoint
          (impl.Graph.createWaypointEdge s nodeFromId nodeToId edgeBaseName nb w isInNodeFrom).2
          (s.components.length : Int)).2.components.length =
        (impl.Graph.createWaypointEdge s nodeFromId nodeToId edgeBaseName nb w
          isInNodeFrom).2.components.length ∧
      ∀ i : Nat,
        (Components.at
          (impl.Graph.getWaypoint
            (impl.Graph.createWaypointEdge s nodeFromId nodeToId edgeBaseName nb w
              isInNodeFrom).2 (s.components.length : Int)).2.components i).map (fun c => c.id) =
        (Components.at
          (impl.Graph.createWaypointEdge s nodeFromId nodeToId edgeBaseName nb w
            isInNodeFrom).2.components i).map (fun c => c.id) := by
  rw [← toString_of_pos h1]
  have hstate := createWaypointEdge_state s nodeFromId nodeToId edgeBaseName nb w isInNodeFrom
    from_ to_ hres
  have hgw := getWaypoint_chain s
    (impl.Graph.createWaypointEdge s nodeFromId nodeToId edgeBaseName nb w isInNodeFrom).2
    nodeFromId.toNat nodeToId.toNat from_ w isInNodeFrom
    (edgeBaseName ++ "_e" ++ toString nb) edgeBaseName (depthOf nb) hstate
  have houter : Components.at
      (impl.Graph.createWaypointEdge s nodeFromId nodeToId edgeBaseName nb w
        isInNodeFrom).2.components s.components.length
      = some (outerWaypointEdge nodeFromId.toNat nodeToId.toNat isInNodeFrom
          (edgeBaseName ++ "_e" ++ toString nb) s.components.length) := by
    rw [hstate]
    exact createWaypointEdge_at_outer s _ _ _ _ _ _ _ _
  obtain ⟨hinner, hnode⟩ : Components.at
        (impl.Graph.createWaypointEdge s nodeFromId nodeToId edgeBaseName nb w
          isInNodeFrom).2.components (s.components.length + 2)
        = some (waypointInner nodeFromId.toNat edgeBaseName (depthOf nb)
            (s.components.length + 1)) ∧
      Components.at
        (impl.Graph.createWaypointEdge s nodeFromId nodeToId edgeBaseName nb w
          isInNodeFrom).2.components (s.components.length + 1)
        = some (waypointNode edgeBaseName (depthOf nb) (s.components.length + 1)) := by
    rw [hstate]
    exact createWaypointEdge_at_depth s nodeFromId.toNat nodeToId.toNat from_ w isInNodeFrom
      (edgeBaseName ++ "_e" ++ toString nb) edgeBaseName (depthOf nb) 0 (Nat.zero_le _)
  refine ⟨?_, s.components.length + 2, s.components.length + 1, ?_, ?_, ?_, ?_, ?_, ?_⟩
  · rw [houter]
    rfl
  · rw [hgw]
  · rw [hinner]
    simp [waypointInner_name]
  · rw [hgw]
    simp only []
    rw [rename_at_other _ _ (by omega), rename_at_self _ hinner]
    rfl
  · rw [hgw]
    simp only []
    rw [rename_at_self _ (by rw [rename_at_other _ _ (by omega)]; exact hnode)]
    rfl
  · rw [hgw]
    simp only [rename_length]
  · intro i
    rw [hgw]
    simp only [rename_keeps_id]

/-- Witness for C7: the base name "approach" with `nb = 3` on `demoServer`
gives "approach_e3", "approach_e3_waypoint" and "approach_e3_waypoint_node". -/
theorem getWaypoint_renames_segment_and_node_witness :
    "approach" ++ "_e" ++ Nat.repr (3 : Int).toNat = "approach_e3" ∧
    "approach" ++ "_e" ++ Nat.repr (3 : Int).toNat ++ "_waypoint" = "approach_e3_waypoint" ∧
    "approach" ++ "_e" ++ Nat.repr (3 : Int).toNat ++ "_waypoint_node"
      = "approach_e3_waypoint_node" ∧
    (Components.at
      (impl.Graph.createWaypointEdge demoServer 2 3 "approach" 3 1 true).2.components
        demoServer.components.length).map (fun c => (c.name, c.kind))
      = some ("approach" ++ "_e" ++ Nat.repr (3 : Int).toNat, Kind.waypointEdge) ∧
    (Components.at
      (impl.Graph.getWaypoint
        (impl.Graph.createWaypointEdge demoServer 2 3 "approach" 3 1 true).2 5).2.components
        7).map (fun c => c.name) = some "approach_e3_waypoint" ∧
    (Components.at
      (impl.Graph.getWaypoint
        (impl.Graph.createWaypointEdge demoServer 2 3 "approach" 3 1 true).2 5).2.components
        6).map (fun c => c.name) = some "approach_e3_waypoint_node" :=
  ⟨by decide, by decide, by decide,
   (getWaypoint_renames_segment_and_node demoServer 2 3 "approach" 3 1 true
      { id := 2, kind := .node, name := "N1", neighbors := [(4, 1)] }
      { id := 3, kind := .node, name := "N2" } rfl (by decide)).1,
   rfl, rfl⟩

/-! ## `createGraph` -/

/-- C8: without a composite robot `createGraph` fails with an error and
leaves the whole state as it was (no graph registered, `graph_` and the
active constraint graph of the problem solver untouched); with a robot it
returns the id of a graph that it registers under the next free id, with the
given name and the max-iterations and error-threshold of the problem solver,
and installs that graph as `graph_` and as the constraint graph of the
problem solver and of its problem. -/
theorem createGraph_needs_robot (s : Server) (graphName : String) :
    (s.problemSolver.robot = none →
      (impl.Graph.createGraph s graphName).1 =
        .error (.Error "You should build a composite robot before creating a graph.") ∧
      (impl.Graph.createGraph s graphName).2 = s) ∧
    (∀ robot, s.problemSolver.robot = some robot →
      (impl.Graph.createGraph s graphName).1 = .ok (s.components.length : Int) ∧
      s.components.at s.components.length = none ∧
      Components.at (impl.Graph.createGraph s graphName).2.components s.components.length =
        some { id := s.components.length, kind := .graph, name := graphName,
               maxIterations := s.problemSolver.maxIterations,
               errorThreshold := s.problemSolver.errorThreshold } ∧
      (impl.Graph.createGraph s graphName).2.components.length = s.components.length + 1 ∧
      (impl.Graph.createGraph s graphName).2.graph_ = some s.components.length ∧
      (impl.Graph.createGraph s graphName).2.problemSolver.constraintGraph
        = some s.components.length ∧
      (impl.Graph.createGraph s graphName).2.problemSolver.problemConstraintGraph
        = some s.components.length) := by
  constructor
  · intro h
    simp [impl.Graph.createGraph, h]
  · intro robot h
    simp only [impl.Graph.createGraph, h]
    refine ⟨?_, ?_, ?_, ?_, ?_, ?_, ?_⟩
    · trivial
    · simp [Components.at]
    · have hat := @at_append_right s.components
        [some ({ id := s.components.length, kind := .graph, name := graphName,
                 maxIterations := s.problemSolver.maxIterations,
                 errorThreshold := s.problemSolver.errorThreshold } : GraphComponent)] 0
      rw [Nat.add_zero] at hat
      rw [hat]
      rfl
    · simp
    · trivial
    · trivial
    · trivial

/-- Witness for C8: `noRobotServer` has no robot and is left as it was;
`demoServer` has one and gets the graph "G2" under id 5. -/
theorem createGraph_needs_robot_witness :
    ((impl.Graph.createGraph noRobotServer "G").1 =
        .error (.Error "You should build a composite robot before creating a graph.") ∧
      (impl.Graph.createGraph noRobotServer "G").2 = noRobotServer) ∧
    (impl.Graph.createGraph demoServer "G2").1 = .ok (demoServer.components.length : Int) ∧
    (impl.Graph.createGraph demoServer "G2").2.graph_ = some demoServer.components.length :=
  ⟨(createGraph_needs_robot noRobotServer "G").1 rfl,
   ((createGraph_needs_robot demoServer "G2").2 ⟨2⟩ rfl).1,
   ((createGraph_needs_robot demoServer "G2").2 ⟨2⟩ rfl).2.2.2.2.1⟩

/-! ## `extend` -/

theorem copyEntries_self (l : List Double) : impl.copyEntries l.length l = l := by
  apply List.ext_getElem?
  intro i
  unfold impl.copyEntries
  by_cases h : i < l.length
  · simp [List.getElem?_range h, h]
  · have h2 : l.length ≤ i := Nat.le_of_not_lt h
    simp [List.getElem?_eq_none h2, h2]

theorem floatSeqToConfig_ok {ps : ProblemSolver} {robot : Robot} {dofArray : floatSeq}
    (hrobot : ps.robot = some robot) (hsize : dofArray.length = robot.configSize) :
    impl.floatSeqToConfig ps dofArray = .ok dofArray := by
  simp [impl.floatSeqToConfig, hrobot, hsize.symm, copyEntries_self]

theorem floatSeqToConfig_size {ps : ProblemSolver} {robot : Robot} {dofArray : floatSeq}
    (hrobot : ps.robot = some robot) (hsize : dofArray.length ≠ robot.configSize) :
    impl.floatSeqToConfig ps dofArray =
      .error (.stdException "robot nb dof is different from config size") := by
  simp [impl.floatSeqToConfig, hrobot, hsize]

theorem extend_of_step_failure {s : Server} {q_near q_rand : floatSeq} {robot : Robot}
    {planner : ManipulationPlanner} (hrobot : s.problemSolver.robot = some robot)
    (hnear : q_near.length = robot.configSize) (hrand : q_rand.length = robot.configSize)
    (hplanner : s.problemSolver.manipulationPlanner = some planner)
    (h : planner.extend q_near q_rand = .ok none) :
    impl.Problem.extend s q_near q_rand = .ok q_near := by
  simp [impl.Problem.extend, floatSeqToConfig_ok hrobot hnear,
    floatSeqToConfig_ok hrobot hrand, hplanner, h, copyEntries_self]

theorem extend_of_step_success {s : Server} {q_near q_rand : floatSeq} {robot : Robot}
    {planner : ManipulationPlanner} {path : Path}
    (hrobot : s.problemSolver.robot = some robot)
    (hnear : q_near.length = robot.configSize) (hrand : q_rand.length = robot.configSize)
    (hplanner : s.problemSolver.manipulationPlanner = some planner)
    (h : planner.extend q_near q_rand = .ok (some path)) :
    impl.Problem.extend s q_near q_rand = .ok (path.eval path.length) := by
  simp [impl.Problem.extend, floatSeqToConfig_ok hrobot hnear,
    floatSeqToConfig_ok hrobot hrand, hplanner, h, copyEntries_self]

/-- C9: for `q_near` and `q_rand` of the robot's configuration size and a
graph-aware planner, when the extension step reports failure `extend` returns
`q_near` itself (same length, same values), and when the step succeeds with a
path it returns the value of the path at the parameter equal to its length. -/
theorem extend_returns_qnear_or_path_end (s : Server) (q_near q_rand : floatSeq)
    (robot : Robot) (planner : ManipulationPlanner)
    (hrobot : s.problemSolver.robot = some robot)
    (hnear : q_near.length = robot.configSize) (hrand : q_rand.length = robot.configSize)
    (hplanner : s.problemSolver.manipulationPlanner = some planner) :
    (planner.extend q_near q_rand = .ok none →
      impl.Problem.extend s q_near q_rand = .ok q_near) ∧
    (∀ path, planner.extend q_near q_rand = .ok (some path) →
      impl.Problem.extend s q_near q_rand = .ok (path.eval path.length)) := by
  constructor
  · intro h
    exact extend_of_step_failure hrobot hnear hrand hplanner h
  · intro path h
    exact extend_of_step_success hrobot hnear hrand hplanner h

/-- Witness for C9: on `demoServer` the step fails and `extend` returns
`q_near`; on `steppingServer` the step succeeds with a path of length 7 and
`extend` returns the value of the path at 7. -/
theorem extend_returns_qnear_or_path_end_witness :
    impl.Problem.extend demoServer [⟨1⟩, ⟨2⟩] [⟨3⟩, ⟨4⟩] = .ok [⟨1⟩, ⟨2⟩] ∧
    impl.Problem.extend steppingServer [⟨1⟩, ⟨2⟩] [⟨3⟩, ⟨4⟩] = .ok [⟨7⟩, ⟨7⟩] :=
  ⟨(extend_returns_qnear_or_path_end demoServer [⟨1⟩, ⟨2⟩] [⟨3⟩, ⟨4⟩] ⟨2⟩
      ⟨fun _ _ => .ok none⟩ rfl rfl rfl rfl).1 rfl,
   (extend_returns_qnear_or_path_end steppingServer [⟨1⟩, ⟨2⟩] [⟨3⟩, ⟨4⟩] ⟨2⟩
      ⟨fun _ _ => .ok (some ⟨⟨7⟩, fun t => [t, t]⟩)⟩ rfl rfl rfl rfl).2
      ⟨⟨7⟩, fun t => [t, t]⟩ rfl⟩

/-- C10, as stated, fails: on `demoServer` the planner is a
`ManipulationPlanner`, the robot has configuration size 2, and `extend` with
a `q_near` of length 1 raises the exception of `floatSeqToConfig`; on
`throwingServer` the planner is a `ManipulationPlanner` too and `extend`
fails with the error that its extension step throws. -/
theorem extend_fails_with_graph_aware_planner :
    demoServer.problemSolver.manipulationPlanner.isSome = true ∧
    impl.Problem.extend demoServer [⟨1⟩] [⟨3⟩, ⟨4⟩] =
      .error (.stdException "robot nb dof is different from config size") ∧
    throwingServer.problemSolver.manipulationPlanner.isSome = true ∧
    impl.Problem.extend throwingServer [⟨1⟩, ⟨2⟩] [⟨3⟩, ⟨4⟩] =
      .error (.Error "no edge could be selected") := by
  refine ⟨rfl, rfl, rfl, rfl⟩

/-- C10 (amended): with a robot, `extend` fails exactly in three cases: an
input sequence does not have the robot's configuration size
(`floatSeqToConfig` rejects it), or the active planner is not graph-aware, or
the extension step of the graph-aware planner throws. Whenever both
sequences have the robot's configuration size, the planner is graph-aware and
its step does not throw, `extend` returns a configuration and raises no
error. -/
theorem extend_failure_cases (s : Server) (q_near q_rand : floatSeq) (robot : Robot)
    (hrobot : s.problemSolver.robot = some robot) :
    ((q_near.length ≠ robot.configSize ∨ q_rand.length ≠ robot.configSize) →
      impl.Problem.extend s q_near q_rand =
        .error (.stdException "robot nb dof is different from config size")) ∧
    (q_near.length = robot.configSize → q_rand.length = robot.configSize →
      (s.problemSolver.manipulationPlanner = none →
        impl.Problem.extend s q_near q_rand =
          .error (.Error "The planner must be a ManipulationPlanner")) ∧
      (∀ planner, s.problemSolver.manipulationPlanner = some planner →
        (∀ msg, planner.extend q_near q_rand = .error msg →
          impl.Problem.extend s q_near q_rand = .error (.Error msg)) ∧
        ((∀ msg, planner.extend q_near q_rand ≠ .error msg) →
          ∃ output, impl.Problem.extend s q_near q_rand = .ok output))) := by
  constructor
  · intro h
    by_cases hnear : q_near.length = robot.configSize
    · have hrand : q_rand.length ≠ robot.configSize := by
        rcases h with h | h
        · exact absurd hnear h
        · exact h
      simp [impl.Problem.extend, floatSeqToConfig_ok hrobot hnear,
        floatSeqToConfig_size hrobot hrand]
    · simp [impl.Problem.extend, floatSeqToConfig_size hrobot hnear]
  · intro hnear hrand
    constructor
    · intro hp
      simp [impl.Problem.extend, floatSeqToConfig_ok hrobot hnear,
        floatSeqToConfig_ok hrobot hrand, hp]
    · intro planner hp
      constructor
      · intro msg hmsg
        simp [impl.Problem.extend, floatSeqToConfig_ok hrobot hnear,
          floatSeqToConfig_ok hrobot hrand, hp, hmsg]
      · intro hno
        cases hstep : planner.extend q_near q_rand with
        | error msg => exact absurd hstep (hno msg)
        | ok r =>
          cases r with
          | none => exact ⟨_, extend_of_step_failure hrobot hnear hrand hp hstep⟩
          | some path => exact ⟨_, extend_of_step_success hrobot hnear hrand hp hstep⟩

/-- Witness for C10 (amended): one session for each way to fail, and
`demoServer` for the call that returns. -/
theorem extend_failure_cases_witness :
    impl.Problem.extend demoServer [⟨1⟩] [⟨3⟩, ⟨4⟩] =
      .error (.stdException "robot nb dof is different from config size") ∧
    impl.Problem.extend otherPlannerServer [⟨1⟩, ⟨2⟩] [⟨3⟩, ⟨4⟩] =
      .error (.Error "The planner must be a ManipulationPlanner") ∧
    impl.Problem.extend throwingServer [⟨1⟩, ⟨2⟩] [⟨3⟩, ⟨4⟩] =
      .error (.Error "no edge could be selected") ∧
    ∃ output, impl.Problem.extend demoServer [⟨1⟩, ⟨2⟩] [⟨3⟩, ⟨4⟩] = .ok output :=
  ⟨(extend_failure_cases demoServer [⟨1⟩] [⟨3⟩, ⟨4⟩] ⟨2⟩ rfl).1 (Or.inl (by decide)),
   ((extend_failure_cases otherPlannerServer [⟨1⟩, ⟨2⟩] [⟨3⟩, ⟨4⟩] ⟨2⟩ rfl).2 rfl rfl).1 rfl,
   (((extend_failure_cases throwingServer [⟨1⟩, ⟨2⟩] [⟨3⟩, ⟨4⟩] ⟨2⟩ rfl).2 rfl rfl).2
      ⟨fun _ _ => .error "no edge could be selected"⟩ rfl).1 _ rfl,
   (((extend_failure_cases demoServer [⟨1⟩, ⟨2⟩] [⟨3⟩, ⟨4⟩] ⟨2⟩ rfl).2 rfl rfl).2
      ⟨fun _ _ => .ok none⟩ rfl).2 (by intro msg h; cases h)⟩

/-! ## `createEdge` -/

theorem isNode_iff {k : Kind} : k.isNode = true ↔ k = .node := by
  cases k <;> simp [Kind.isNode]

theorem resolveNodes_of_nodes {components : Components} {nodeFromId nodeToId : Int}
    {from_ to_ : GraphComponent}
    (hf : GraphComponent.get components nodeFromId = .ok (some from_))
    (hfk : from_.kind = .node)
    (ht : GraphComponent.get components nodeToId = .ok (some to_))
    (htk : to_.kind = .node) :
    impl.Graph.resolveNodes components nodeFromId nodeToId = .ok (from_, to_) := by
  simp [impl.Graph.resolveNodes, hf, ht, dynamicCast, hfk, htk, Kind.isNode]

theorem resolveNodes_error {components : Components} {nodeFromId nodeToId : Int}
    (h : resolvesToNode components nodeFromId = false ∨
      resolvesToNode components nodeToId = false) :
    ∃ msg, impl.Graph.resolveNodes components nodeFromId nodeToId = .error (.Error msg) := by
  unfold impl.Graph.resolveNodes
  cases hf : GraphComponent.get components nodeFromId with
  | error msg => exact ⟨msg, rfl⟩
  | ok pf =>
    cases ht : GraphComponent.get components nodeToId with
    | error msg => exact ⟨msg, rfl⟩
    | ok pt =>
      refine ⟨"The nodes could not be found.", ?_⟩
      cases pf with
      | none => simp [dynamicCast]
      | some cf =>
        cases pt with
        | none =>
          by_cases hk : Kind.isNode cf.kind = true <;> simp [dynamicCast, hk]
        | some ct =>
          simp only [resolvesToNode, hf, ht] at h
          rcases h with h | h
          · simp [dynamicCast, h]
          · by_cases hk : Kind.isNode cf.kind = true <;> simp [dynamicCast, h, hk]

/-- C11: `createEdge` fails with an error when one of the two ids does not
resolve in the registry or resolves to a component that is not a Node, and
then the whole state is as before (no edge registered, no list of outgoing
edges changed). When both ids resolve to Nodes it returns the next free id,
registers under it a plain edge from the first node to the second with the
given flag and name, appends that edge with the given weight to the outgoing
edges of the first node and leaves every other component as it was. -/
theorem createEdge_links_two_nodes (s : Server) (nodeFromId nodeToId : Int)
    (edgeName : String) (w : Int) (isInNodeFrom : Bool) :
    ((resolvesToNode s.components nodeFromId = false ∨
        resolvesToNode s.components nodeToId = false) →
      (∃ msg, (impl.Graph.createEdge s nodeFromId nodeToId edgeName w isInNodeFrom).1
        = .error (.Error msg)) ∧
      (impl.Graph.createEdge s nodeFromId nodeToId edgeName w isInNodeFrom).2 = s) ∧
    (∀ from_ to_ : GraphComponent,
      GraphComponent.get s.components nodeFromId = .ok (some from_) → from_.kind = .node →
      GraphComponent.get s.components nodeToId = .ok (some to_) → to_.kind = .node →
      (impl.Graph.createEdge s nodeFromId nodeToId edgeName w isInNodeFrom).1
        = .ok (s.components.length : Int) ∧
      s.components.at s.components.length = none ∧
      Components.at
        (impl.Graph.createEdge s nodeFromId nodeToId edgeName w isInNodeFrom).2.components
        s.components.length
        = some (namedEdge nodeFromId.toNat nodeToId.toNat isInNodeFrom edgeName
            s.components.length) ∧
      (impl.Graph.createEdge s nodeFromId nodeToId edgeName w
        isInNodeFrom).2.neighborsOf nodeFromId.toNat
        = some (from_.neighbors ++ [(s.components.length, w)]) ∧
      (impl.Graph.createEdge s nodeFromId nodeToId edgeName w
        isInNodeFrom).2.components.length = s.components.length + 1 ∧
      ∀ i, i ≠ nodeFromId.toNat → i < s.components.length →
        Components.at
          (impl.Graph.createEdge s nodeFromId nodeToId edgeName w isInNodeFrom).2.components i
          = s.components.at i) := by
  constructor
  · intro h
    obtain ⟨msg, hmsg⟩ := resolveNodes_error h
    simp [impl.Graph.createEdge, hmsg]
  · intro from_ to_ hf hfk ht htk
    obtain ⟨_, hflt, _⟩ := get_ok_bounds hf
    have hres := resolveNodes_of_nodes hf hfk ht htk
    have hlen : (withNeighbor s.components nodeFromId.toNat from_ s.components.length w).length
        = s.components.length := by
      simp [withNeighbor]
    have hrename : Components.rename
        (withNeighbor s.components nodeFromId.toNat from_ s.components.length w
          ++ [some (Edge.create .edge s.components.length nodeFromId.toNat nodeToId.toNat
                isInNodeFrom)])
        s.components.length edgeName =
        withNeighbor s.components nodeFromId.toNat from_ s.components.length w
          ++ [some (namedEdge nodeFromId.toNat nodeToId.toNat isInNodeFrom edgeName
                s.components.length)] := by
      have h := rename_last
        (withNeighbor s.components nodeFromId.toNat from_ s.components.length w)
        (Edge.create .edge s.components.length nodeFromId.toNat nodeToId.toNat isInNodeFrom)
        edgeName
      rw [hlen] at h
      exact h
    have hstate : (impl.Graph.createEdge s nodeFromId nodeToId edgeName w
        isInNodeFrom).2.components =
        withNeighbor s.components nodeFromId.toNat from_ s.components.length w
          ++ [some (namedEdge nodeFromId.toNat nodeToId.toNat isInNodeFrom edgeName
                s.components.length)] := by
      simp only [impl.Graph.createEdge, hres, Node.linkTo, hrename]
    refine ⟨?_, ?_, ?_, ?_, ?_, ?_⟩
    · simp only [impl.Graph.createEdge, hres, Node.linkTo]
    · simp [Components.at]
    · rw [hstate]
      have h := @at_append_right
        (withNeighbor s.components nodeFromId.toNat from_ s.components.length w)
        [some (namedEdge nodeFromId.toNat nodeToId.toNat isInNodeFrom edgeName
                s.components.length)] 0
      rw [Nat.add_zero, hlen] at h
      rw [h]
      rfl
    · rw [Server.neighborsOf, hstate, at_append_left (by rw [hlen]; exact hflt), withNeighbor,
        at_set_self _ hflt]
      rfl
    · rw [hstate]
      simp [hlen]
    · intro i hi hilt
      rw [hstate, at_append_left (by rw [hlen]; exact hilt), withNeighbor,
        at_set_other _ (Ne.symm hi)]

/-- Witness for C11: on `demoServer`, id 1 is a subgraph and id 9 is not
registered, so both calls fail and leave the session as it was; ids 2 and 3
are Nodes, so the call returns the new id 5 and node 2 gets the edge with
weight 7 after the edge it already had. -/
theorem createEdge_links_two_nodes_witness :
    ((∃ msg, (impl.Graph.createEdge demoServer 1 3 "E" 7 false).1 = .error (.Error msg)) ∧
      (impl.Graph.createEdge demoServer 1 3 "E" 7 false).2 = demoServer) ∧
    ((∃ msg, (impl.Graph.createEdge demoServer 2 9 "E" 7 false).1 = .error (.Error msg)) ∧
      (impl.Graph.createEdge demoServer 2 9 "E" 7 false).2 = demoServer) ∧
    (impl.Graph.createEdge demoServer 2 3 "E" 7 false).1 = .ok (5 : Int) ∧
    (impl.Graph.createEdge demoServer 2 3 "E" 7 false).2.neighborsOf 2
      = some [(4, 1), (5, 7)] :=
  ⟨(createEdge_links_two_nodes demoServer 1 3 "E" 7 false).1 (Or.inl rfl),
   (createEdge_links_two_nodes demoServer 2 9 "E" 7 false).1 (Or.inr rfl),
   ((createEdge_links_two_nodes demoServer 2 3 "E" 7 false).2
      { id := 2, kind := .node, name := "N1", neighbors := [(4, 1)] }
      { id := 3, kind := .node, name := "N2" } rfl rfl rfl rfl).1,
   ((createEdge_links_two_nodes demoServer 2 3 "E" 7 false).2
      { id := 2, kind := .node, name := "N1", neighbors := [(4, 1)] }
      { id := 3, kind := .node, name := "N2" } rfl rfl rfl rfl).2.2.2.1⟩

/-! ## Name lists: empty, and with a first unknown name -/

/-- C12: for an id that resolves to a live component of any kind,
`setNumericalConstraints` and `setLockedDofConstraints` called with an empty
name list return without error and leave the whole state, hence both
constraint lists of the component, as they were. -/
theorem empty_name_list_changes_nothing (s : Server) (graphComponentId : Int)
    (c : GraphComponent)
    (hget : GraphComponent.get s.components graphComponentId = .ok (some c)) :
    impl.Graph.setNumericalConstraints s graphComponentId [] = (.ok (), s) ∧
    impl.Graph.setLockedDofConstraints s graphComponentId [] = (.ok (), s) ∧
    s.numericalConstraintsOf graphComponentId.toNat = some c.numericalConstraints ∧
    s.lockedJointsOf graphComponentId.toNat = some c.lockedJoints := by
  obtain ⟨_, _, hat⟩ := get_ok_bounds hget
  refine ⟨?_, ?_, ?_, ?_⟩
  · simp [impl.Graph.setNumericalConstraints, hget]
  · simp [impl.Graph.setLockedDofConstraints, hget]
  · simp [Server.numericalConstraintsOf, hat]
  · simp [Server.lockedJointsOf, hat]

/-- Witness for C12: the graph (id 0) and the level-set edge (id 4) of
`demoServer`. -/
theorem empty_name_list_changes_nothing_witness :
    impl.Graph.setNumericalConstraints demoServer 0 [] = (.ok (), demoServer) ∧
    impl.Graph.setLockedDofConstraints demoServer 4 [] = (.ok (), demoServer) :=
  ⟨(empty_name_list_changes_nothing demoServer 0
      { id := 0, kind := .graph, name := "G", maxIterations := 20, errorThreshold := ⟨1⟩ }
      rfl).1,
   (empty_name_list_changes_nothing demoServer 4
      { id := 4, kind := .levelSetEdge, name := "L", nodeFrom := 2, nodeTo := 3,
        isInNodeFrom := true } rfl).2.1⟩

theorem takeWhile_eq_take_of_first {α : Type} (p : α → Bool) (l : List α) :
    ∀ (k : Nat) (a : α), l[k]? = some a → p a = false →
      (∀ (j : Nat) (b : α), j < k → l[j]? = some b → p b = true) →
      l.takeWhile p = l.take k ∧ l.all p = false := by
  induction l with
  | nil =>
    intro k a hk
    simp at hk
  | cons x rest ih =>
    intro k a hk hpa hbefore
    cases k with
    | zero =>
      simp only [List.getElem?_cons_zero, Option.some.injEq] at hk
      subst hk
      simp [List.takeWhile, hpa]
    | succ k =>
      have hx : p x = true := hbefore 0 x (Nat.succ_pos k) (by simp)
      simp only [List.getElem?_cons_succ] at hk
      obtain ⟨h1, h2⟩ := ih k a hk hpa (fun j b hj hb =>
        hbefore (j + 1) b (Nat.succ_lt_succ hj) (by simpa using hb))
      simp [List.takeWhile, hx, h1, h2]

theorem takeWhile_eq_self_of_all {α : Type} (p : α → Bool) (l : List α)
    (h : l.all p = true) : l.takeWhile p = l := by
  induction l with
  | nil => rfl
  | cons x rest ih =>
    simp only [List.all_cons, Bool.and_eq_true] at h
    simp [List.takeWhile, h.1, ih h.2]

theorem setNumericalConstraints_outcome (s : Server) (id : Int) (names : Names_t)
    (c : GraphComponent) (hget : GraphComponent.get s.components id = .ok (some c)) :
    (impl.Graph.setNumericalConstraints s id names).1 =
      (if names.all (resolvesNumerical s.problemSolver) then .ok ()
        else .error (.Error "The numerical function does not exist.")) ∧
    (impl.Graph.setNumericalConstraints s id names).2.numericalConstraintsOf id.toNat =
      some (c.numericalConstraints ++
        (names.takeWhile (resolvesNumerical s.problemSolver)).map
          (numericalOf s.problemSolver)) := by
  obtain ⟨_, hlt, hat⟩ := get_ok_bounds hget
  cases names with
  | nil => simp [impl.Graph.setNumericalConstraints, hget, Server.numericalConstraintsOf, hat]
  | cons name rest =>
    simp only [impl.Graph.setNumericalConstraints, hget, List.length_cons,
      gt_iff_lt, Nat.zero_lt_succ, if_true, setNumericalConstraints_loop_eq]
    refine ⟨?_, ?_⟩
    · trivial
    · simp [Server.numericalConstraintsOf, Server.setComponent, at_set_self _ hlt]

/-- C14: for an id that resolves to a live component, when the first name of
the list that is not a registered numerical constraint stands at index `k`,
`setNumericalConstraints` raises an error and the component's numerical
constraint list afterwards is its previous list followed by exactly the
constraints named at the indices before `k`, in order; when every name is
registered the call returns without error and the list afterwards is the
previous list followed by the constraints of all the names, in list order. -/
theorem setNumericalConstraints_stops_at_first_unknown (s : Server) (id : Int)
    (names : Names_t) (c : GraphComponent)
    (hget : GraphComponent.get s.components id = .ok (some c)) :
    (∀ (k : Nat) (name : String), names[k]? = some name →
      resolvesNumerical s.problemSolver name = false →
      (∀ (j : Nat) (known : String), j < k → names[j]? = some known →
        resolvesNumerical s.problemSolver known = true) →
      (impl.Graph.setNumericalConstraints s id names).1 =
        .error (.Error "The numerical function does not exist.") ∧
      (impl.Graph.setNumericalConstraints s id names).2.numericalConstraintsOf id.toNat =
        some (c.numericalConstraints ++ (names.take k).map (numericalOf s.problemSolver))) ∧
    (names.all (resolvesNumerical s.problemSolver) = true →
      (impl.Graph.setNumericalConstraints s id names).1 = .ok () ∧
      (impl.Graph.setNumericalConstraints s id names).2.numericalConstraintsOf id.toNat =
        some (c.numericalConstraints ++ names.map (numericalOf s.problemSolver))) := by
  obtain ⟨hres, hlist⟩ := setNumericalConstraints_outcome s id names c hget
  constructor
  · intro k name hk hname hbefore
    obtain ⟨htake, hall⟩ := takeWhile_eq_take_of_first (resolvesNumerical s.problemSolver)
      names k name hk hname hbefore
    rw [hres, hlist, htake, hall]
    simp
  · intro hall
    rw [hres, hlist, takeWhile_eq_self_of_all _ _ hall, hall]
    simp

/-- Witness for C14: on node 2 of `demoServer`, the names "grasp", "grasp",
"missing", "grasp" have their first unknown name at index 2 and leave two
constraints attached; the names "grasp", "grasp" are all known. -/
theorem setNumericalConstraints_stops_at_first_unknown_witness :
    ((impl.Graph.setNumericalConstraints demoServer 2
        ["grasp", "grasp", "missing", "grasp"]).1 =
        .error (.Error "The numerical function does not exist.") ∧
      (impl.Graph.setNumericalConstraints demoServer 2
        ["grasp", "grasp", "missing", "grasp"]).2.numericalConstraintsOf (2 : Int).toNat =
        some ([] ++ (["grasp", "grasp", "missing", "grasp"].take 2).map
          (numericalOf demoSolver))) ∧
    ((impl.Graph.setNumericalConstraints demoServer 2 ["grasp", "grasp"]).1 = .ok () ∧
      (impl.Graph.setNumericalConstraints demoServer 2
        ["grasp", "grasp"]).2.numericalConstraintsOf (2 : Int).toNat =
        some ([] ++ ["grasp", "grasp"].map (numericalOf demoSolver))) :=
  ⟨(setNumericalConstraints_stops_at_first_unknown demoServer 2
      ["grasp", "grasp", "missing", "grasp"]
      { id := 2, kind := .node, name := "N1", neighbors := [(4, 1)] } rfl).1 2 "missing" rfl
      rfl (by
        intro j known hj hknown
        have hj' : j = 0 ∨ j = 1 := by omega
        rcases hj' with h | h <;> subst h <;> cases hknown <;> rfl),
   (setNumericalConstraints_stops_at_first_unknown demoServer 2 ["grasp", "grasp"]
      { id := 2, kind := .node, name := "N1", neighbors := [(4, 1)] } rfl).2 rfl⟩

/-- C13 at the failing input: on `demoServer` no numerical constraint is
registered as "missing". `setNumericalConstraints` on node 2 with that name
tests the function pointer and fails with an error, but
`setNumericalConstraintsForPath` on the same node with the same name has no
such test: it returns without error and leaves the node with a path
constraint built on a null function. `setLockedDofConstraints` has no test
either: it fails when the lookup throws (`demoServer`), and on
`nullLookupServer`, where the lookup returns a null pointer, it returns
without error and attaches that null pointer. -/
theorem path_constraints_accept_unknown_name :
    demoSolver.numericalConstraint "missing" = none ∧
    (impl.Graph.setNumericalConstraints demoServer 2 ["missing"]).1 =
      .error (.Error "The numerical function does not exist.") ∧
    (impl.Graph.setNumericalConstraintsForPath demoServer 2 ["missing"]).1 = .ok () ∧
    (impl.Graph.setNumericalConstraintsForPath demoServer 2
      ["missing"]).2.numericalConstraintsForPathOf 2 = some [⟨none, ⟨0⟩⟩] ∧
    (impl.Graph.setLockedDofConstraints demoServer 2 ["missing"]).1 =
      .error (.Error "No locked joint with this name.") ∧
    (impl.Graph.setLockedDofConstraints nullLookupServer 2 ["missing"]).1 = .ok () ∧
    (impl.Graph.setLockedDofConstraints nullLookupServer 2 ["missing"]).2.lockedJointsOf 2
      = some [none] := by
  refine ⟨rfl, rfl, rfl, rfl, rfl, rfl, rfl⟩

/-! ## The element lists of `createWaypointEdge`, for any registry -/

theorem fill_entries (components : Components) :
    ∀ (l : List (Option GraphComponent)) (e n : List GraphComp),
      impl.Graph.createWaypointEdge.fill components l = some (e, n) →
      e.length = l.length ∧ n.length = l.length ∧
      ∀ r, r < l.length →
        ∃ it to_, l[r]? = some (some it) ∧ components.at it.nodeTo = some to_ ∧
          e[r]? = some (GraphComp.of it) ∧ n[r]? = some (GraphComp.of to_) := by
  intro l
  induction l with
  | nil =>
    intro e n h
    simp only [impl.Graph.createWaypointEdge.fill, Option.some.injEq, Prod.mk.injEq] at h
    obtain ⟨h1, h2⟩ := h
    subst h1
    subst h2
    refine ⟨rfl, rfl, ?_⟩
    intro r hr
    simp at hr
  | cons p rest ih =>
    intro e n h
    cases p with
    | none => simp [impl.Graph.createWaypointEdge.fill] at h
    | some it =>
      cases hto : components.at it.nodeTo with
      | none => simp [impl.Graph.createWaypointEdge.fill, hto] at h
      | some to_ =>
        cases hrest : impl.Graph.createWaypointEdge.fill components rest with
        | none => simp [impl.Graph.createWaypointEdge.fill, hto, hrest] at h
        | some en =>
          obtain ⟨e1, n1⟩ := en
          simp only [impl.Graph.createWaypointEdge.fill, hto, hrest, Option.some.injEq,
            Prod.mk.injEq] at h
          obtain ⟨h1, h2⟩ := h
          subst h1
          subst h2
          obtain ⟨he, hn, hall⟩ := ih e1 n1 hrest
          refine ⟨by simp [he], by simp [hn], ?_⟩
          intro r hr
          cases r with
          | zero => exact ⟨it, to_, by simp, hto, by simp [GraphComp.of], by simp [GraphComp.of]⟩
          | succ r =>
            obtain ⟨it2, to2, ha, hb, hc, hd⟩ := hall r (by simpa using hr)
            exact ⟨it2, to2, by simpa using ha, hb, by simpa using hc, by simpa using hd⟩

theorem waypoint_registered {accepts : Kind → Bool} {components : Components}
    {cur y : GraphComponent}
    (h : WaypointEdge.waypoint accepts components cur = some y) :
    (∃ i, components.at i = some y) ∧ accepts y.kind = true := by
  unfold WaypointEdge.waypoint at h
  cases hw : cur.waypoint with
  | none => simp [hw] at h
  | some w =>
    simp only [hw] at h
    cases hat : components.at w.1 with
    | none => simp [hat, dynamicCast] at h
    | some c =>
      simp only [hat, dynamicCast] at h
      by_cases hk : accepts c.kind = true
      · simp only [hk, if_true, Option.some.injEq] at h
        subst h
        exact ⟨⟨w.1, hat⟩, hk⟩
      · simp [hk] at h

theorem isEdge_of_isWaypointEdge {k : Kind} (h : k.isWaypointEdge = true) :
    k.isEdge = true := by
  cases k <;> simp [Kind.isWaypointEdge, Kind.isEdge] at h ⊢

theorem walk_registered (components : Components) :
    ∀ (fuel : Nat) (cur : GraphComponent) (acc : List GraphComponent)
      (x : GraphComponent) (ys : List GraphComponent),
      impl.Graph.createWaypointEdge.walk components fuel cur acc = some (x, ys) →
      (∀ y ∈ acc, (∃ i, components.at i = some y) ∧ y.kind.isEdge = true) →
      ∀ y ∈ ys, (∃ i, components.at i = some y) ∧ y.kind.isEdge = true := by
  intro fuel
  induction fuel with
  | zero =>
    intro cur acc x ys h
    simp [impl.Graph.createWaypointEdge.walk] at h
  | succ fuel ih =>
    intro cur acc x ys h hacc
    unfold impl.Graph.createWaypointEdge.walk at h
    cases hnext : WaypointEdge.waypoint Kind.isWaypointEdge components cur with
    | none =>
      simp only [hnext, Option.some.injEq, Prod.mk.injEq] at h
      obtain ⟨_, h2⟩ := h
      subst h2
      exact hacc
    | some next =>
      simp only [hnext] at h
      apply ih next (next :: acc) x ys h
      intro y hy
      rcases List.mem_cons.mp hy with hy | hy
      · subst hy
        exact ⟨(waypoint_registered hnext).1,
          isEdge_of_isWaypointEdge (waypoint_registered hnext).2⟩
      · exact hacc y hy

theorem elements_shape (components : Components) (edgeId : Nat) (out : GraphElements)
    (h : impl.Graph.createWaypointEdge.elements components edgeId = .ok out) :
    ∃ edge, components.at edgeId = some edge ∧
      out.edges.getLast? = some (GraphComp.of edge) ∧
      out.edges.length = out.nodes.length + 1 ∧
      1 ≤ out.nodes.length ∧
      ∀ r, r < out.nodes.length →
        ∃ (it to_ : GraphComponent) (i : Nat),
          components.at i = some it ∧ it.kind.isEdge = true ∧
          components.at it.nodeTo = some to_ ∧
          out.edges[r]? = some (GraphComp.of it) ∧ out.nodes[r]? = some (GraphComp.of to_) := by
  unfold impl.Graph.createWaypointEdge.elements at h
  cases hedge : components.at edgeId with
  | none => simp [hedge] at h
  | some edge =>
    simp only [hedge] at h
    cases hwalk : impl.Graph.createWaypointEdge.walk components (components.length + 1)
        edge [] with
    | none => simp [hwalk] at h
    | some r =>
      obtain ⟨cur, edges⟩ := r
      simp only [hwalk] at h
      cases hfill : impl.Graph.createWaypointEdge.fill components
          (WaypointEdge.waypoint Kind.isEdge components cur :: edges.map some) with
      | none => simp [hfill] at h
      | some en =>
        obtain ⟨e, n⟩ := en
        simp only [hfill, Except.ok.injEq] at h
        subst h
        obtain ⟨he, hn, hall⟩ := fill_entries components _ e n hfill
        have hreg := walk_registered components _ edge [] cur edges hwalk
          (by intro y hy; simp at hy)
        refine ⟨edge, rfl, by simp [GraphComp.of], ?_, ?_, ?_⟩
        · simp [he, hn]
        · simp [hn]
        · intro r hr
          simp only [hn] at hr
          obtain ⟨it, to_, ha, hb, hc, hd⟩ := hall r hr
          have hitreg : (∃ i, components.at i = some it) ∧ it.kind.isEdge = true := by
            cases r with
            | zero =>
              simp only [List.getElem?_cons_zero, Option.some.injEq] at ha
              exact waypoint_registered ha
            | succ r =>
              simp only [List.getElem?_cons_succ, List.getElem?_map] at ha
              cases hr2 : edges[r]? with
              | none => simp [hr2] at ha
              | some y =>
                simp only [hr2, Option.map_some', Option.some.injEq] at ha
                subst ha
                exact hreg y (List.getElem?_mem hr2)
          obtain ⟨⟨i, hi⟩, hk⟩ := hitreg
          refine ⟨it, to_, i, hi, hk, hb, ?_, hd⟩
          rw [List.getElem?_append_left (by rw [he]; exact hr)]
          exact hc

/-- C15: whenever `createWaypointEdge` returns element lists, there is one
more edge entry than node entries, there is at least one node entry, the
entry of rank `r` in `nodes` carries the name and id of the target node of
the registered edge whose name and id the entry of rank `r` in `edges`
carries, and the last entry of `edges` carries the name and id of the
waypoint edge itself, registered by the call from the source node to the
target node. -/
theorem createWaypointEdge_element_lists (s : Server) (nodeFromId nodeToId : Int)
    (edgeBaseName : String) (nb w : Int) (isInNodeFrom : Bool) (out : GraphElements)
    (hok : (impl.Graph.createWaypointEdge s nodeFromId nodeToId edgeBaseName nb w
      isInNodeFrom).1 = .ok out) :
    out.edges.length = out.nodes.length + 1 ∧
    1 ≤ out.nodes.length ∧
    (∀ r, r < out.nodes.length →
      ∃ (it to_ : GraphComponent) (i : Nat),
        Components.at
          (impl.Graph.createWaypointEdge s nodeFromId nodeToId edgeBaseName nb w
            isInNodeFrom).2.components i = some it ∧
        it.kind.isEdge = true ∧
        Components.at
          (impl.Graph.createWaypointEdge s nodeFromId nodeToId edgeBaseName nb w
            isInNodeFrom).2.components it.nodeTo = some to_ ∧
        out.edges[r]? = some (GraphComp.of it) ∧ out.nodes[r]? = some (GraphComp.of to_)) ∧
    ∃ edge,
      Components.at
        (impl.Graph.createWaypointEdge s nodeFromId nodeToId edgeBaseName nb w
          isInNodeFrom).2.components s.components.length = some edge ∧
      s.components.at s.components.length = none ∧
      edge.kind = .waypointEdge ∧ edge.nodeFrom = nodeFromId.toNat ∧
      edge.nodeTo = nodeToId.toNat ∧
      out.edges.getLast? = some (GraphComp.of edge) := by
  cases hres : impl.Graph.resolveNodes s.components nodeFromId nodeToId with
  | error e => simp [impl.Graph.createWaypointEdge, hres] at hok
  | ok r =>
    obtain ⟨from_, to_⟩ := r
    have hfst : (impl.Graph.createWaypointEdge s nodeFromId nodeToId edgeBaseName nb w
        isInNodeFrom).1 =
        impl.Graph.createWaypointEdge.elements
          (impl.Graph.createWaypointEdge s nodeFromId nodeToId edgeBaseName nb w
            isInNodeFrom).2.components s.components.length := by
      simp only [impl.Graph.createWaypointEdge, hres, Node.linkTo]
    rw [hfst] at hok
    obtain ⟨edge, hedge, hlast, hlen, hpos, hall⟩ := elements_shape _ _ _ hok
    have houter : Components.at
        (impl.Graph.createWaypointEdge s nodeFromId nodeToId edgeBaseName nb w
          isInNodeFrom).2.components s.components.length
        = some (outerWaypointEdge nodeFromId.toNat nodeToId.toNat isInNodeFrom
            (edgeBaseName ++ "_e" ++ toString nb) s.components.length) := by
      rw [createWaypointEdge_state s nodeFromId nodeToId edgeBaseName nb w isInNodeFrom
        from_ to_ hres]
      exact createWaypointEdge_at_outer s _ _ _ _ _ _ _ _
    rw [hedge] at houter
    have hedge2 := Option.some.inj houter
    refine ⟨hlen, hpos, hall, edge, hedge, by simp [Components.at], ?_, ?_, ?_, hlast⟩
    · rw [hedge2]
      rfl
    · rw [hedge2]
      rfl
    · rw [hedge2]
      rfl

/-- Witness for C15: the call with three waypoints on `demoServer` returns
`demoChain`, four edge entries and three node entries. -/
theorem createWaypointEdge_element_lists_witness :
    (impl.Graph.createWaypointEdge demoServer 2 3 "approach" 3 1 true).1 = .ok demoChain ∧
    demoChain.edges.length = demoChain.nodes.length + 1 ∧
    1 ≤ demoChain.nodes.length :=
  ⟨rfl,
   (createWaypointEdge_element_lists demoServer 2 3 "approach" 3 1 true demoChain rfl).1,
   (createWaypointEdge_element_lists demoServer 2 3 "approach" 3 1 true demoChain rfl).2.1⟩

/-! ## Sizes in the projection methods -/

theorem copyEntries_length (size : Nat) (source : List Double) :
    (impl.copyEntries size source).length = size := by
  simp [impl.copyEntries]

theorem floatSeqToConfig_ok_inv {ps : ProblemSolver} {dofArray : floatSeq}
    {config : Configuration_t} (h : impl.floatSeqToConfig ps dofArray = .ok config) :
    ∃ robot, ps.robot = some robot ∧ dofArray.length = robot.configSize ∧
      config = dofArray := by
  unfold impl.floatSeqToConfig at h
  cases hrobot : ps.robot with
  | none => simp [hrobot] at h
  | some robot =>
    simp only [hrobot] at h
    by_cases hsize : dofArray.length = robot.configSize
    · refine ⟨robot, rfl, hsize, ?_⟩
      simp only [hsize, ne_eq, not_true_eq_false, if_false, Except.ok.injEq] at h
      rw [← h, ← hsize, copyEntries_self]
    · simp [hsize] at h

theorem project_ok_size {ps : ProblemSolver} {constraint : ConstraintSet} {input : floatSeq}
    {r : Bool × floatSeq × Option Double}
    (h : impl.Problem.project ps constraint input = .ok r) :
    ∃ robot, ps.robot = some robot ∧ input.length = robot.configSize ∧
      r.2.1.length = robot.configSize := by
  unfold impl.Problem.project at h
  cases hcfg : impl.floatSeqToConfig ps input with
  | error e => simp [hcfg] at h
  | ok config =>
    obtain ⟨robot, hrobot, hsize, hconfig⟩ := floatSeqToConfig_ok_inv hcfg
    subst hconfig
    simp only [hcfg] at h
    cases happly : constraint.apply config with
    | error msg => simp [happly] at h
    | ok p =>
      simp only [happly, Except.ok.injEq] at h
      subst h
      refine ⟨robot, hrobot, hsize, ?_⟩
      simp only [copyEntries_length]
      rw [constraint.apply_size config p happly, hsize]

theorem project_wrong_size {ps : ProblemSolver} {robot : Robot} (constraint : ConstraintSet)
    {input : floatSeq} (hrobot : ps.robot = some robot)
    (hsize : input.length ≠ robot.configSize) :
    impl.Problem.project ps constraint input =
      .error (.stdException "robot nb dof is different from config size") := by
  simp [impl.Problem.project, floatSeqToConfig_size hrobot hsize]

theorem applyConstraints_ok_project {s : Server} {IDnodes : List Int} {input : floatSeq}
    {r : Bool × floatSeq × Option Double}
    (h : impl.Problem.applyConstraints s IDnodes input = .ok r) :
    ∃ constraint, impl.Problem.project s.problemSolver constraint input = .ok r := by
  unfold impl.Problem.applyConstraints at h
  by_cases hlen : IDnodes.length = 0
  · simp [hlen] at h
  · simp only [hlen, if_false] at h
    cases hres : impl.Problem.resolve Kind.isNode "node" s.components IDnodes [] with
    | error e => simp [hres] at h
    | ok nodes =>
      simp only [hres] at h
      cases hg : s.problemSolver.constraintGraph with
      | none => simp [hg] at h
      | some g =>
        simp only [hg] at h
        cases hc : s.problemSolver.configConstraint nodes with
        | error msg => simp [hc] at h
        | ok constraint =>
          simp only [hc] at h
          exact ⟨constraint, h⟩

theorem applyConstraintsWithOffset_wrong_qnear {s : Server} {robot : Robot}
    (IDedges : List Int) {qnear : floatSeq} (input : floatSeq)
    (hrobot : s.problemSolver.robot = some robot)
    (hsize : qnear.length ≠ robot.configSize) :
    (∀ r, impl.Problem.applyConstraintsWithOffset s IDedges qnear input ≠ .ok r) ∧
    ∀ edges constraint, IDedges ≠ [] →
      impl.Problem.resolve Kind.isEdge "edge" s.components IDedges [] = .ok edges →
      s.problemSolver.constraintGraph.isSome = true →
      s.problemSolver.configConstraint edges = .ok constraint →
      impl.Problem.applyConstraintsWithOffset s IDedges qnear input =
        .error (.Error "robot nb dof is different from config size") := by
  have hq := floatSeqToConfig_size hrobot hsize
  constructor
  · intro r h
    unfold impl.Problem.applyConstraintsWithOffset at h
    by_cases hlen : IDedges.length = 0
    · simp [hlen] at h
    · simp only [hlen, if_false] at h
      cases hres : impl.Problem.resolve Kind.isEdge "edge" s.components IDedges [] with
      | error e => simp [hres] at h
      | ok edges =>
        simp only [hres] at h
        cases hg : s.problemSolver.constraintGraph with
        | none => simp [hg] at h
        | some g =>
          simp only [hg] at h
          cases hc : s.problemSolver.configConstraint edges with
          | error msg => simp [hc] at h
          | ok constraint => simp [hc, hq] at h
  · intro edges constraint hne hres hg hc
    have hlen : ¬ IDedges.length = 0 := by
      intro h0
      exact hne (List.length_eq_zero.mp h0)
    obtain ⟨g, hg2⟩ := Option.isSome_iff_exists.mp hg
    simp [impl.Problem.applyConstraintsWithOffset, hlen, hres, hg2, hc, hq,
      impl.Exn.converted]

/-- C16: whenever `applyConstraints` returns, a robot exists and the output
sequence has the robot's configuration size, so that for any list of ids,
non-empty or not, the call either raises or returns an output of that size.
An input whose length differs from the robot's configuration size is never
projected: `floatSeqToConfig` rejects it whatever the constraint set is, and
`applyConstraints` does not return. In `applyConstraintsWithOffset` a `qnear`
of wrong length makes the call fail, and once the edges are resolved and
their constraint set is built the failure is the rejection by
`floatSeqToConfig`, whatever the offset and the projection of that set would
do. -/
theorem projection_respects_configuration_size (s : Server) (IDs : List Int)
    (qnear input : floatSeq) :
    (∀ r, impl.Problem.applyConstraints s IDs input = .ok r →
      ∃ robot, s.problemSolver.robot = some robot ∧ r.2.1.length = robot.configSize) ∧
    (∀ robot, s.problemSolver.robot = some robot → input.length ≠ robot.configSize →
      (∀ constraint, impl.Problem.project s.problemSolver constraint input =
        .error (.stdException "robot nb dof is different from config size")) ∧
      (∀ r, impl.Problem.applyConstraints s IDs input ≠ .ok r)) ∧
    (∀ robot, s.problemSolver.robot = some robot → qnear.length ≠ robot.configSize →
      (∀ r, impl.Problem.applyConstraintsWithOffset s IDs qnear input ≠ .ok r) ∧
      ∀ edges constraint, IDs ≠ [] →
        impl.Problem.resolve Kind.isEdge "edge" s.components IDs [] = .ok edges →
        s.problemSolver.constraintGraph.isSome = true →
        s.problemSolver.configConstraint edges = .ok constraint →
        impl.Problem.applyConstraintsWithOffset s IDs qnear input =
          .error (.Error "robot nb dof is different from config size")) := by
  refine ⟨?_, ?_, ?_⟩
  · intro r h
    obtain ⟨constraint, hp⟩ := applyConstraints_ok_project h
    obtain ⟨robot, hrobot, _, hout⟩ := project_ok_size hp
    exact ⟨robot, hrobot, hout⟩
  · intro robot hrobot hsize
    refine ⟨fun constraint => project_wrong_size constraint hrobot hsize, ?_⟩
    intro r h
    obtain ⟨constraint, hp⟩ := applyConstraints_ok_project h
    rw [project_wrong_size constraint hrobot hsize] at hp
    cases hp
  · intro robot hrobot hsize
    exact applyConstraintsWithOffset_wrong_qnear IDs input hrobot hsize

/-- Witness for C16: on `demoServer` (configuration size 2) the projection of
`(1, 2)` on node 2 returns a sequence of length 2; the input `(1)` is rejected
for every constraint set; with `qnear = (1)` the projection on edge 4 fails
with the message of `floatSeqToConfig`. -/
theorem projection_respects_configuration_size_witness :
    impl.Problem.applyConstraints demoServer [2] [⟨1⟩, ⟨2⟩] = .ok (true, [⟨1⟩, ⟨2⟩], none) ∧
    (∃ robot, demoServer.problemSolver.robot = some robot ∧
      ((true, [⟨1⟩, ⟨2⟩], none) : Bool × floatSeq × Option Double).2.1.length
        = robot.configSize) ∧
    (∀ constraint, impl.Problem.project demoServer.problemSolver constraint [⟨1⟩] =
      .error (.stdException "robot nb dof is different from config size")) ∧
    impl.Problem.applyConstraintsWithOffset demoServer [4] [⟨1⟩] [⟨1⟩, ⟨2⟩] =
      .error (.Error "robot nb dof is different from config size") :=
  ⟨rfl,
   (projection_respects_configuration_size demoServer [2] [] [⟨1⟩, ⟨2⟩]).1
      (true, [⟨1⟩, ⟨2⟩], none) rfl,
   ((projection_respects_configuration_size demoServer [2] [] [⟨1⟩]).2.1 ⟨2⟩ rfl
      (by decide)).1,
   ((projection_respects_configuration_size demoServer [4] [⟨1⟩] [⟨1⟩, ⟨2⟩]).2.2 ⟨2⟩ rfl
      (by decide)).2 [4] acceptAll (by decide) rfl rfl rfl⟩

end hpp.manipulation
